import Mathlib

/-!
Shallow embedding of the mark2 mind-map core: the markdown parser
(src/utils/markdownParser.js), the layout generator
(src/utils/mindMapGenerator.js), the SVG renderer's layout and viewport
(src/utils/mindMapRenderer.js) and the MindMap organism's viewport
(src/organisms/MindMap/index.js), together with theorems settling the
frozen claims about them.

Strings are modelled as lists of characters (one entry per code point);
JavaScript numbers are modelled as exact rationals for the viewport
arithmetic and as reals where the layout uses trigonometry.
-/

namespace Mark2

/-- Characters matched by the JavaScript regex class `\s`. -/
def isSpaceJS (c : Char) : Bool :=
  c.toNat == 0x20 || c.toNat == 0x09 || c.toNat == 0x0A || c.toNat == 0x0D ||
  c.toNat == 0x0b || c.toNat == 0x0c ||
  c.toNat == 0xA0 || c.toNat == 0x1680 ||
  (0x2000 ≤ c.toNat && c.toNat ≤ 0x200A) ||
  c.toNat == 0x2028 || c.toNat == 0x2029 || c.toNat == 0x202F ||
  c.toNat == 0x205F || c.toNat == 0x3000 || c.toNat == 0xFEFF

/-- JavaScript line terminators: the characters `$`/`^` anchor around in
multiline mode and the characters the regex `.` refuses to match. -/
def isLineTerm (c : Char) : Bool :=
  c.toNat == 0x0A || c.toNat == 0x0D || c.toNat == 0x2028 || c.toNat == 0x2029

/-- JavaScript `String.prototype.trim`: strip `\s` characters on both ends. -/
def trimJS (l : List Char) : List Char :=
  ((l.dropWhile isSpaceJS).reverse.dropWhile isSpaceJS).reverse

/-- A header token produced by `parseHeaders`: level = number of `#`,
trimmed text, and the character index of the match in the input. -/
structure Header where
  level : Nat
  text : List Char
  index : Nat
deriving Repr, DecidableEq

/-- Position `p` is a valid `^` anchor in multiline mode: start of input or
right after a line terminator. -/
def lineStartAt (cs : List Char) (p : Nat) : Bool :=
  p == 0 ||
    (match cs.get? (p - 1) with
     | some c => isLineTerm c
     | none => false)

/-- Backtracking case of `\s+(.+)$` when the whitespace run reaches the end
of the input: the engine gives back trailing whitespace characters so that
`.+` can match at least one of them.  Returns the amount of whitespace kept
by `\s+` and the characters captured by `.+`. -/
def backtrackCapture (ws : List Char) : Option (Nat × List Char) :=
  match ((List.range ws.length).filter
      (fun s => s != 0 &&
        (match ws.get? s with
         | some c => !(isLineTerm c)
         | none => false))).getLast? with
  | some s => some (s, (ws.drop s).takeWhile (fun c => !(isLineTerm c)))
  | none => none

/-- One attempt of the multiline regex `^(#{1,6})\s+(.+)$` at position `p`.
On success returns the header and the end position of the whole match
(the updated `lastIndex`).  A run of seven or more `#` can never match
because every shorter prefix is followed by another `#`, not whitespace. -/
def matchHeaderAt (cs : List Char) (p : Nat) : Option (Header × Nat) :=
  if lineStartAt cs p then
    let rest := cs.drop p
    let r := (rest.takeWhile (· == '#')).length
    if 1 ≤ r ∧ r ≤ 6 then
      let afterHash := rest.drop r
      let w := (afterHash.takeWhile isSpaceJS).length
      if 1 ≤ w then
        let afterWs := afterHash.drop w
        if afterWs.isEmpty then
          match backtrackCapture (afterHash.take w) with
          | some (s, capture) =>
            some ({ level := r, text := trimJS capture, index := p },
                  p + r + s + capture.length)
          | none => none
        else
          let capture := afterWs.takeWhile (fun c => !(isLineTerm c))
          some ({ level := r, text := trimJS capture, index := p },
                p + r + w + capture.length)
      else none
    else none
  else none

/-- The `exec` loop of `parseHeaders`: scan for the leftmost match at or
after the cursor, emit it, and resume at the end of the match.  The fuel is
an upper bound on the number of steps; the cursor strictly increases, so
`cs.length + 2` steps always suffice. -/
def parseHeadersGo (cs : List Char) : Nat → Nat → List Header
  | _, 0 => []
  | p, fuel + 1 =>
    if cs.length < p then []
    else
      match matchHeaderAt cs p with
      | some (h, e) => h :: parseHeadersGo cs e fuel
      | none => parseHeadersGo cs (p + 1) fuel

/-- `parseHeaders` of markdownParser.js on a (string) input. -/
def parseHeaders (cs : List Char) : List Header :=
  parseHeadersGo cs 0 (cs.length + 2)

/-- A list-item token produced by `parseList`: trimmed text, whether the
marker was ordered (`1.`) or unordered (`-`/`*`/`+`), and the character
index of the start of the item's line. -/
structure ListItem where
  text : List Char
  ordered : Bool
  index : Nat
deriving Repr, DecidableEq

/-- The `\s+(.+)$` part of the per-line list regexes, applied to what
follows the marker.  `$` is end-of-string here (no multiline flag).  The
argument is always a suffix of a trimmed line, so it never ends in
whitespace and the backtracking branch of the regex engine is vacuous:
a match needs a whitespace run followed by a nonempty remainder free of
line terminators. -/
def restAfterMarker (l : List Char) : Option (List Char) :=
  let w := (l.takeWhile isSpaceJS).length
  if 1 ≤ w then
    let afterWs := l.drop w
    if !afterWs.isEmpty && afterWs.all (fun c => !(isLineTerm c)) then
      some afterWs
    else none
  else none

/-- The unordered-list regex `^[-*+]\s+(.+)$` on a trimmed line. -/
def unorderedMatch : List Char → Option (List Char)
  | [] => none
  | c :: rest =>
    if c == '-' || c == '*' || c == '+' then restAfterMarker rest else none

/-- The ordered-list regex `^\d+\.\s+(.+)$` on a trimmed line. -/
def orderedMatch (l : List Char) : Option (List Char) :=
  let d := (l.takeWhile Char.isDigit).length
  if 1 ≤ d then
    match l.drop d with
    | '.' :: rest => restAfterMarker rest
    | _ => none
  else none

/-- The line loop of `parseList`, threading the running character index of
the line starts (`charIndex += line.length + 1`). -/
def parseListGo : List (List Char) → Nat → List ListItem
  | [], _ => []
  | line :: rest, charIndex =>
    let trimmed := trimJS line
    ((match unorderedMatch trimmed with
      | some t => [{ text := trimJS t, ordered := false, index := charIndex }]
      | none => []) ++
     (match orderedMatch trimmed with
      | some t => [{ text := trimJS t, ordered := true, index := charIndex }]
      | none => [])) ++
    parseListGo rest (charIndex + line.length + 1)

/-- `parseList` of markdownParser.js: split on newlines and match each
trimmed line against the two list regexes. -/
def parseList (cs : List Char) : List ListItem :=
  parseListGo (List.splitOn '\n' cs) 0

/-- Generic map with a running index, used to mirror the JavaScript
`forEach((x, i) => ...)` loops. -/
def mapWithIndex {A B : Type} (f : Nat → A → B) : Nat → List A → List B
  | _, [] => []
  | i, a :: rest => f i a :: mapWithIndex f (i + 1) rest

/-- Generic flat map with a running index, mirroring loops that push a
block of elements per iteration. -/
def flatMapIdx {A B : Type} (f : Nat → A → List B) : Nat → List A → List B
  | _, [] => []
  | i, a :: rest => f i a ++ flatMapIdx f (i + 1) rest

/-- Replace the last element of a list by `f` of it, mirroring a mutation
of the most recently pushed object. -/
def updateLast {A : Type} (f : A → A) : List A → List A
  | [] => []
  | [a] => [f a]
  | a :: b :: rest => a :: updateLast f (b :: rest)

/-- A level-3 subsection record of `parseMarkdown`. -/
structure Subsection where
  title : List Char
  items : List (List Char)
  startIndex : Nat
deriving Repr, DecidableEq

/-- A level-2 section record of `parseMarkdown`. -/
structure Section where
  title : List Char
  items : List (List Char)
  subsections : List Subsection
  startIndex : Nat
deriving Repr, DecidableEq

/-- The root record built by `parseMarkdown` before node generation. -/
structure RootDoc where
  title : List Char
  sections : List Section
  items : List (List Char)
deriving Repr, DecidableEq

/-- The header loop of `parseMarkdown`: each level-2 header opens a new
section (always appended, and `currentSection` is always the last one);
a level-3 header opens a subsection under the last section when one
exists; all other levels leave the structure unchanged. -/
def buildSections : List Header → List Section → List Section
  | [], secs => secs
  | h :: rest, secs =>
    if h.level == 2 then
      buildSections rest
        (secs ++ [{ title := h.text, items := [], subsections := [],
                    startIndex := h.index }])
    else if h.level == 3 && !secs.isEmpty then
      buildSections rest
        (updateLast (fun s =>
          { s with subsections := s.subsections ++
              [{ title := h.text, items := [], startIndex := h.index }] }) secs)
    else
      buildSections rest secs

/-- The section scan of the association loop: walk the sections in document
order, keep the last one whose `startIndex` is below the item's index, and
break at the first one at or beyond it.  Returns the position of the kept
section. -/
def targetSectionIdx : List Section → Nat → Option Nat
  | [], _ => none
  | s :: rest, idx =>
    if s.startIndex < idx then
      match targetSectionIdx rest idx with
      | some j => some (j + 1)
      | none => some 0
    else none

/-- The subsection scan of the association loop: walk the target section's
subsections, keep the last one whose `startIndex` is below the item's
index provided the next section (if any) does not start at or before the
item, and break at the first subsection at or beyond the item.  Returns
the position of the kept subsection. -/
def targetSubsectionIdx : List Subsection → Option Nat → Nat → Option Nat
  | [], _, _ => none
  | s :: rest, nextStart, idx =>
    if s.startIndex < idx then
      match targetSubsectionIdx rest nextStart idx with
      | some j => some (j + 1)
      | none =>
        match nextStart with
        | none => some 0
        | some ns => if idx < ns then some 0 else none
    else none

/-- Append an item text to the direct item list of section `i`. -/
def appendItemToSection (secs : List Section) (i : Nat) (t : List Char) :
    List Section :=
  match secs.get? i with
  | some s => secs.set i { s with items := s.items ++ [t] }
  | none => secs

/-- Append an item text to subsection `j` of section `i`. -/
def appendItemToSubsection (secs : List Section) (i j : Nat) (t : List Char) :
    List Section :=
  match secs.get? i with
  | some s =>
    match s.subsections.get? j with
    | some sub =>
      secs.set i
        { s with subsections :=
            s.subsections.set j { sub with items := sub.items ++ [t] } }
    | none => secs
  | none => secs

/-- One step of the association loop of `parseMarkdown` for a single list
item. -/
def associateItem (root : RootDoc) (item : ListItem) : RootDoc :=
  match targetSectionIdx root.sections item.index with
  | none => { root with items := root.items ++ [item.text] }
  | some i =>
    match root.sections.get? i with
    | none => root
    | some sec =>
      let nextStart := (root.sections.get? (i + 1)).map (fun s => s.startIndex)
      match targetSubsectionIdx sec.subsections nextStart item.index with
      | some j =>
        { root with sections := appendItemToSubsection root.sections i j item.text }
      | none =>
        { root with sections := appendItemToSection root.sections i item.text }

/-- The whole association pass (`lists.forEach(...)`). -/
def associate (root : RootDoc) (items : List ListItem) : RootDoc :=
  items.foldl associateItem root

/-- A node record of `buildNodeStructure` / `calculateNodePositions`
(mindMapGenerator.js).  The `x`/`y` coordinates are absent until the
layout assigns them. -/
structure GNode where
  id : Nat
  text : List Char
  level : Nat
  parent : Option Nat
  children : List Nat
  x : Option ℝ := none
  y : Option ℝ := none

/-- Number of nodes generated for one subsection (the subsection node and
its items). -/
def subBlockSize (sub : Subsection) : Nat :=
  1 + sub.items.length

/-- The nodes generated for one subsection: the subsection node (level 3)
followed by its item nodes (level 4).  `startId` is the id given to the
subsection node; its items receive the following ids. -/
def buildSubNodes (startId pid : Nat) (sub : Subsection) : List GNode :=
  { id := startId, text := sub.title, level := 3, parent := some pid,
    children := (List.range sub.items.length).map (fun j => startId + 1 + j) } ::
  mapWithIndex (fun j t =>
    { id := startId + 1 + j, text := t, level := 4, parent := some startId,
      children := [] }) 0 sub.items

/-- The subsection blocks of one section, threading the id counter. -/
def buildSubBlocks (pid : Nat) : Nat → List Subsection → List GNode
  | _, [] => []
  | startId, sub :: rest =>
    buildSubNodes startId pid sub ++
    buildSubBlocks pid (startId + subBlockSize sub) rest

/-- Ids of the subsection nodes of one section, threading the id counter. -/
def subBlockIds : Nat → List Subsection → List Nat
  | _, [] => []
  | startId, sub :: rest =>
    startId :: subBlockIds (startId + subBlockSize sub) rest

/-- Number of nodes generated for one section. -/
def sectionSize (sec : Section) : Nat :=
  1 + sec.items.length + (sec.subsections.map subBlockSize).sum

/-- The nodes generated for one section: the section node (level 2,
child of the root, id 1), its direct item nodes (level 3), then its
subsection blocks, in the push order of buildNodeStructure. -/
def buildSectionNodes (startId : Nat) (sec : Section) : List GNode :=
  let itemIds := (List.range sec.items.length).map (fun j => startId + 1 + j)
  let subStart := startId + 1 + sec.items.length
  { id := startId, text := sec.title, level := 2, parent := some 1,
    children := itemIds ++ subBlockIds subStart sec.subsections } ::
  (mapWithIndex (fun j t =>
      { id := startId + 1 + j, text := t, level := 3, parent := some startId,
        children := [] }) 0 sec.items ++
   buildSubBlocks startId subStart sec.subsections)

/-- All section blocks, threading the id counter. -/
def buildSectionsNodes : Nat → List Section → List GNode
  | _, [] => []
  | startId, sec :: rest =>
    buildSectionNodes startId sec ++
    buildSectionsNodes (startId + sectionSize sec) rest

/-- Ids of the section nodes, threading the id counter. -/
def sectionIds : Nat → List Section → List Nat
  | _, [] => []
  | startId, sec :: rest =>
    startId :: sectionIds (startId + sectionSize sec) rest

/-- `buildNodeStructure` of markdownParser.js: the root node (id 1, no
parent) followed by the section blocks, ids assigned by a running counter
starting at 2. -/
def buildNodeStructure (data : RootDoc) : List GNode :=
  { id := 1, text := data.title, level := 1, parent := none,
    children := sectionIds 2 data.sections } ::
  buildSectionsNodes 2 data.sections

/-- A connection record of `generateConnections` (mindMapGenerator.js).
The JavaScript fields `from`/`to` are named `fromId`/`toId` here because
`from` is a reserved word in Lean. -/
structure GConn where
  id : List Char
  fromId : Nat
  toId : Nat
  fromX : ℝ
  fromY : ℝ
  toX : ℝ
  toY : ℝ

/-- The connection generated for one node, if any: the JavaScript guard
`if (node.parent)` is false for a missing parent and for the (unused)
parent id 0, and the parent must be found in the node list. -/
def connFor (nodes : List GNode) (node : GNode) : Option GConn :=
  match node.parent with
  | none => none
  | some p =>
    if p == 0 then none
    else
      match nodes.find? (fun n => n.id == p) with
      | some parentNode =>
        some { id := "connection-".data ++ (toString parentNode.id).data ++
                 "-".data ++ (toString node.id).data,
               fromId := parentNode.id, toId := node.id,
               fromX := (parentNode.x.getD 0 : ℝ), fromY := parentNode.y.getD 0,
               toX := node.x.getD 0, toY := node.y.getD 0 }
      | none => none

/-- `generateConnections` of mindMapGenerator.js. -/
def generateConnections (nodes : List GNode) : List GConn :=
  nodes.filterMap (connFor nodes)

/-- The result record of `parseMarkdown`. -/
structure ParseResult where
  title : List Char
  sections : List Section
  nodes : List GNode
  error : Option (List Char)

/-- `parseMarkdown` of markdownParser.js on a string input: tokenize
headers and list items, report an error result when no header at all was
found, otherwise build the section hierarchy from the headers after the
first (the first header becomes the title whatever its level), associate
every list item by offsets, and generate the node structure. -/
def parseMarkdown (cs : List Char) : ParseResult :=
  let headers := parseHeaders cs
  let lists := parseList cs
  if headers.length == 0 then
    { title := "Mind Map".data, sections := [], nodes := [],
      error := some "No headers found in markdown".data }
  else
    match headers with
    | [] =>
      { title := "Mind Map".data, sections := [], nodes := [],
        error := some "No headers found in markdown".data }
    | h0 :: hrest =>
      let root0 : RootDoc :=
        { title := h0.text, sections := buildSections hrest [], items := [] }
      let root := associate root0 lists
      { title := root.title, sections := root.sections,
        nodes := buildNodeStructure root, error := none }

end Mark2

namespace Renderer

open Mark2

/-- Viewport state of MindMapRenderer: zoom scale, pan offset, and the
drag state of the pan gesture. -/
structure RState where
  zoom : ℚ
  panX : ℚ
  panY : ℚ
  isDragging : Bool
  lastX : ℚ
  lastY : ℚ
deriving Repr, DecidableEq

/-- The wheel handler of `setupInteractivity`: multiply the zoom by 0.9 or
1.1 depending on the scroll direction and clamp to [0.1, 3]. -/
def wheel (st : RState) (deltaY : ℚ) : RState :=
  let delta : ℚ := if 0 < deltaY then 0.9 else 1.1
  { st with zoom := max 0.1 (min 3 (st.zoom * delta)) }

/-- The mousedown handler over empty canvas: enter the dragging state and
record the pointer position. -/
def mouseDown (st : RState) (clientX clientY : ℚ) : RState :=
  { st with isDragging := true, lastX := clientX, lastY := clientY }

/-- The mousemove handler of `setupInteractivity`: while dragging, add the
screen delta divided by the current zoom to the pan offset and record the
pointer position. -/
def mouseMove (st : RState) (clientX clientY : ℚ) : RState :=
  if st.isDragging then
    { st with panX := st.panX + (clientX - st.lastX) / st.zoom,
              panY := st.panY + (clientY - st.lastY) / st.zoom,
              lastX := clientX, lastY := clientY }
  else st

/-- The mouseup/mouseleave handlers: leave the dragging state. -/
def mouseUp (st : RState) : RState :=
  { st with isDragging := false }

/-- `MindMapRenderer.zoomIn`: multiply the zoom by 1.2, capped at 3. -/
def zoomIn (st : RState) : RState :=
  { st with zoom := min 3 (st.zoom * 1.2) }

/-- `MindMapRenderer.zoomOut`: multiply the zoom by 0.8, floored at 0.2. -/
def zoomOut (st : RState) : RState :=
  { st with zoom := max 0.2 (st.zoom * 0.8) }

/-- A laid-out node as consumed by `fitToView`: center position and
optional box size (missing sizes fall back to the configured node size). -/
structure VNode where
  x : ℚ
  y : ℚ
  width : Option ℚ
  height : Option ℚ
deriving Repr, DecidableEq

/-- Left edge of a node rectangle (`node.x - halfWidth`), with the
configured node width 180 as fallback box size. -/
def vLeft (v : VNode) : ℚ := v.x - v.width.getD 180 / 2

/-- Right edge of a node rectangle (`node.x + halfWidth`). -/
def vRight (v : VNode) : ℚ := v.x + v.width.getD 180 / 2

/-- Top edge of a node rectangle (`node.y - halfHeight`). -/
def vTop (v : VNode) : ℚ := v.y - v.height.getD 60 / 2

/-- Bottom edge of a node rectangle (`node.y + halfHeight`). -/
def vBottom (v : VNode) : ℚ := v.y + v.height.getD 60 / 2

/-- Left bound of the margin-expanded bounding box of a nonempty node
list (the `minX` accumulator of `fitToView`, minus the proportional
margin `nodeWidth * 0.8`). -/
def boxMinX (n : VNode) (rest : List VNode) : ℚ :=
  (rest.map vLeft).foldl min (vLeft n) - 180 * 0.8

/-- Right bound of the margin-expanded bounding box. -/
def boxMaxX (n : VNode) (rest : List VNode) : ℚ :=
  (rest.map vRight).foldl max (vRight n) + 180 * 0.8

/-- Top bound of the margin-expanded bounding box. -/
def boxMinY (n : VNode) (rest : List VNode) : ℚ :=
  (rest.map vTop).foldl min (vTop n) - 60 * 0.8

/-- Bottom bound of the margin-expanded bounding box. -/
def boxMaxY (n : VNode) (rest : List VNode) : ℚ :=
  (rest.map vBottom).foldl max (vBottom n) + 60 * 0.8

/-- `MindMapRenderer.fitToView`: with no nodes, return unchanged;
otherwise take the bounding box of the node rectangles, widen it by 80%
of the configured node size on each side, fit it into the container with
`min(scaleX, scaleY, 2) * 0.95` floored at 0.3, and center it.  The
container size comes from `getBoundingClientRect` and is passed in. -/
def fitToView (nodes : List VNode) (containerW containerH : ℚ)
    (st : RState) : RState :=
  match nodes with
  | [] => st
  | n :: rest =>
    let minX := boxMinX n rest
    let maxX := boxMaxX n rest
    let minY := boxMinY n rest
    let maxY := boxMaxY n rest
    let width := maxX - minX
    let height := maxY - minY
    let centerX := (minX + maxX) / 2
    let centerY := (minY + maxY) / 2
    let scaleX := containerW / width
    let scaleY := containerH / height
    let zoom := max 0.3 (min scaleX (min scaleY 2) * 0.95)
    { st with zoom := zoom,
              panX := containerW / 2 - centerX * zoom,
              panY := containerH / 2 - centerY * zoom }

/-- `MindMapRenderer.resetView` delegates to `fitToView`. -/
def resetView (nodes : List VNode) (containerW containerH : ℚ)
    (st : RState) : RState :=
  fitToView nodes containerW containerH st

end Renderer

namespace Organism

open Mark2

/-- Viewport state of the MindMap organism component. -/
structure MState where
  scale : ℚ
  translateX : ℚ
  translateY : ℚ
  isDragging : Bool
  lastX : ℚ
  lastY : ℚ
deriving Repr, DecidableEq

/-- `MindMap.handleWheel`: additive zoom by `-deltaY * 0.001`, clamped to
[minZoom, maxZoom] = [0.1, 3]. -/
def handleWheel (st : MState) (deltaY : ℚ) : MState :=
  let delta := -deltaY * 0.001
  { st with scale := max 0.1 (min 3 (st.scale + delta)) }

/-- `MindMap.handlePointerStart`. -/
def handlePointerStart (st : MState) (clientX clientY : ℚ) : MState :=
  { st with isDragging := true, lastX := clientX, lastY := clientY }

/-- `MindMap.handlePointerMove`: while dragging, add the raw screen delta
to the translation (without dividing by the scale) and record the pointer
position. -/
def handlePointerMove (st : MState) (clientX clientY : ℚ) : MState :=
  if st.isDragging then
    { st with translateX := st.translateX + (clientX - st.lastX),
              translateY := st.translateY + (clientY - st.lastY),
              lastX := clientX, lastY := clientY }
  else st

/-- `MindMap.handlePointerEnd`. -/
def handlePointerEnd (st : MState) : MState :=
  { st with isDragging := false }

/-- `MindMap.zoomIn`: multiply the scale by 1.2, capped at maxZoom = 3. -/
def zoomIn (st : MState) : MState :=
  { st with scale := min 3 (st.scale * 1.2) }

/-- `MindMap.zoomOut`: divide the scale by 1.2, floored at minZoom = 0.1. -/
def zoomOut (st : MState) : MState :=
  { st with scale := max 0.1 (st.scale / 1.2) }

/-- `MindMap.resetView`: scale 1 and translation (0, 0), unconditionally. -/
def resetView (st : MState) : MState :=
  { st with scale := 1, translateX := 0, translateY := 0 }

/-- Left bound of the node-center bounding box of the organism
(`data.x - nodeWidth / 2` with nodeWidth 160). -/
def oMinX (e : ℚ × ℚ) (rest : List (ℚ × ℚ)) : ℚ :=
  (rest.map (fun v => v.1 - 160 / 2)).foldl min (e.1 - 160 / 2)

/-- Right bound of the organism's bounding box. -/
def oMaxX (e : ℚ × ℚ) (rest : List (ℚ × ℚ)) : ℚ :=
  (rest.map (fun v => v.1 + 160 / 2)).foldl max (e.1 + 160 / 2)

/-- Top bound of the organism's bounding box (nodeHeight 40). -/
def oMinY (e : ℚ × ℚ) (rest : List (ℚ × ℚ)) : ℚ :=
  (rest.map (fun v => v.2 - 40 / 2)).foldl min (e.2 - 40 / 2)

/-- Bottom bound of the organism's bounding box. -/
def oMaxY (e : ℚ × ℚ) (rest : List (ℚ × ℚ)) : ℚ :=
  (rest.map (fun v => v.2 + 40 / 2)).foldl max (e.2 + 40 / 2)

/-- `MindMap.fitToContent`: with no nodes, return unchanged; otherwise
take the bounding box of the node centers extended by the configured node
size (160 by 40), add a flat padding of 50 on each side, fit with
`min(scaleX, scaleY, 1)` and center.  Nodes are passed as their center
positions; the viewBox size of the SVG is passed in. -/
def fitToContent (entries : List (ℚ × ℚ)) (viewW viewH : ℚ)
    (st : MState) : MState :=
  match entries with
  | [] => st
  | e :: rest =>
    let minX := oMinX e rest
    let maxX := oMaxX e rest
    let minY := oMinY e rest
    let maxY := oMaxY e rest
    let contentWidth := maxX - minX + 50 * 2
    let contentHeight := maxY - minY + 50 * 2
    let scaleX := viewW / contentWidth
    let scaleY := viewH / contentHeight
    let scale := min scaleX (min scaleY 1)
    let centerX := (minX + maxX) / 2
    let centerY := (minY + maxY) / 2
    { st with scale := scale,
              translateX := viewW / 2 - centerX * scale,
              translateY := viewH / 2 - centerY * scale }

end Organism

namespace Generator

open Mark2

/-- The optional layout configuration of `calculateNodePositions`; absent
fields take the JavaScript destructuring defaults. -/
structure GenConfig where
  width : Option ℝ := none
  height : Option ℝ := none
  nodeSpacing : Option ℝ := none
  levelSpacing : Option ℝ := none
  centerX : Option ℝ := none
  centerY : Option ℝ := none

/-- Fallback node used to read through an index that is always in range
in the JavaScript code. -/
def dfltGNode : GNode :=
  { id := 0, text := [], level := 0, parent := none, children := [] }

/-- In-place assignment of both coordinates of the node object at heap
index `i` (a no-op on an out-of-range index, which cannot occur). -/
def setXY (heap : List GNode) (i : Nat) (xv yv : ℝ) : List GNode :=
  match heap[i]? with
  | some n => heap.set i { n with x := some xv, y := some yv }
  | none => heap

/-- The `forEach` of `positionLevelNodes`, performed as successive
in-place updates of the heap: node `idx` at list position `j` is placed on
the circle of the given radius around the current position of the root
node, at angle `j * angleStep - pi / 2`. -/
noncomputable def positionGo (radius angleStep : ℝ) (rootIdx : Nat) :
    List Nat → Nat → List GNode → List GNode
  | [], _, heap => heap
  | idx :: rest, j, heap =>
    let root := heap[rootIdx]?.getD dfltGNode
    let angle := (j : ℝ) * angleStep - Real.pi / 2
    let heap' :=
      match heap[idx]? with
      | some node =>
        heap.set idx
          { node with x := some (root.x.getD 0 + radius * Real.cos angle),
                      y := some (root.y.getD 0 + radius * Real.sin angle) }
      | none => heap
    positionGo radius angleStep rootIdx rest (j + 1) heap'

/-- `positionLevelNodes` of mindMapGenerator.js on the heap model:
`idxs` are the (pointer) indices of the nodes of one level, in input
order. -/
noncomputable def positionLevelNodes (idxs : List Nat) (level : Nat)
    (rootIdx : Nat) (levelSpacing : ℝ) (heap : List GNode) : List GNode :=
  let radius : ℝ := (level : ℝ) * levelSpacing
  let angleStep : ℝ := 2 * Real.pi / (idxs.length : ℝ)
  positionGo radius angleStep rootIdx idxs 0 heap

/-- The sorted distinct levels present on the heap
(`Object.keys(nodesByLevel).map(Number).sort((a, b) => a - b)`): the
levels up to the maximum present, filtered by presence. -/
def genLevels (heap1 : List GNode) : List Nat :=
  let maxLevel := (heap1.map (fun n => n.level)).foldr max 0
  (List.range (maxLevel + 1)).filter
    (fun l => heap1.any (fun n => n.level == l))

/-- The node (pointer) indices of one level group of `nodesByLevel`, in
input order. -/
def genGroup (heap1 : List GNode) (l : Nat) : List Nat :=
  (List.range heap1.length).filter
    (fun i =>
      match heap1[i]? with
      | some n => n.level == l
      | none => false)

/-- `calculateNodePositions` of mindMapGenerator.js, modelled on an
explicit heap: the input array holds references `0, ..., n-1` into the
heap, `[...nodes]` copies the array but shares the node objects, and the
positioning loops assign `x`/`y` on those shared objects.  The result is
the returned array of references together with the final heap. -/
noncomputable def calculateNodePositions (heap : List GNode)
    (cfg : GenConfig) : List Nat × List GNode :=
  let width := cfg.width.getD 800
  let height := cfg.height.getD 600
  let levelSpacing := cfg.levelSpacing.getD 200
  let centerX := cfg.centerX.getD (width / 2)
  let centerY := cfg.centerY.getD (height / 2)
  if heap.isEmpty then ([], heap)
  else
    let ptrs := List.range heap.length
    match heap.findIdx? (fun n => n.level == 1) with
    | none => (ptrs, heap)
    | some rootIdx =>
      let heap1 := setXY heap rootIdx centerX centerY
      let heap2 := ((genLevels heap1).drop 1).foldl
        (fun h lvl =>
          positionLevelNodes (genGroup heap1 lvl) lvl rootIdx levelSpacing h)
        heap1
      (ptrs, heap2)

end Generator

namespace Renderer

open Mark2

/-- Decimal digits of a number, for building the template-literal ids. -/
def natChars (n : Nat) : List Char :=
  (toString n).data

/-- A laid-out node of MindMapRenderer. -/
structure RNode where
  id : List Char
  text : List Char
  x : ℝ
  y : ℝ
  level : Nat
  type : List Char
  width : ℝ
  height : ℝ
  parentId : Option (List Char)

/-- A connection of MindMapRenderer (the JavaScript fields `from`/`to`
are named `fromId`/`toId` because `from` is a reserved word in Lean). -/
structure RConn where
  fromId : List Char
  toId : List Char
  type : List Char

/-- An element of the `allItems` working list of `processData`: either a
direct bullet of the section or one of its subsections. -/
inductive AllItem where
  | item (text : List Char)
  | subsection (text : List Char) (subsectionIndex : Nat)
      (items : List (List Char))

/-- The `text` field of an `allItems` element. -/
def AllItem.text : AllItem → List Char
  | .item t => t
  | .subsection t _ _ => t

/-- The `type === 'item'` test. -/
def AllItem.isItem : AllItem → Bool
  | .item _ => true
  | .subsection _ _ _ => false

/-- The id `section-<i>`. -/
def sectionId (i : Nat) : List Char :=
  "section-".data ++ natChars i

/-- The id `item-<i>-<j>`. -/
def itemId (i j : Nat) : List Char :=
  "item-".data ++ natChars i ++ "-".data ++ natChars j

/-- The id `subsection-<i>-<j>`. -/
def subsectionId (i j : Nat) : List Char :=
  "subsection-".data ++ natChars i ++ "-".data ++ natChars j

/-- The id `subitem-<i>-<j>-<k>`. -/
def subitemId (i j k : Nat) : List Char :=
  "subitem-".data ++ natChars i ++ "-".data ++ natChars j ++ "-".data ++
    natChars k

/-- The id `bullet-<i>-<j>-<k>`. -/
def bulletId (i j k : Nat) : List Char :=
  "bullet-".data ++ natChars i ++ "-".data ++ natChars j ++ "-".data ++
    natChars k

/-- `MindMapRenderer.layoutBulletsVertically`: stack the bullet items of
section `i` on a vertical line at a fixed horizontal offset of 500 from
the section, on the left when the section angle exceeds pi and on the
right otherwise, with constant vertical spacing 120 centered on the
section's y. -/
noncomputable def layoutBulletsVertically (bullets : List AllItem)
    (sx sy θ : ℝ) (i : Nat) : List RNode × List RConn :=
  let side : ℝ := if Real.pi < θ then -1 else 1
  let startY := sy - ((bullets.length : ℝ) - 1) * 120 / 2
  (mapWithIndex (fun j b =>
      { id := itemId i j, text := b.text,
        x := sx + 500 * side, y := startY + (j : ℝ) * 120,
        level := 3, type := "item".data,
        width := 180 * 0.8, height := 60 * 0.8,
        parentId := some (sectionId i) }) 0 bullets,
   mapWithIndex (fun j _ =>
      ({ fromId := sectionId i, toId := itemId i j,
         type := "secondary".data } : RConn)) 0 bullets)

/-- The per-item body of `MindMapRenderer.layoutItemsRadially`: a direct
item becomes one level-3 node; a subsection becomes a level-3 subsection
node followed by its own radial fan of level-4 subitems. -/
noncomputable def radialEntry (itemRadius itemAngleStep baseAngle sx sy : ℝ)
    (i : Nat) (j : Nat) (b : AllItem) : List RNode × List RConn :=
  let itemAngle := baseAngle + (j : ℝ) * itemAngleStep
  let ix := sx + Real.cos itemAngle * itemRadius
  let iy := sy + Real.sin itemAngle * itemRadius
  match b with
  | .item t =>
    ([{ id := itemId i j, text := t, x := ix, y := iy, level := 3,
        type := "item".data, width := 180 * 0.8, height := 60 * 0.8,
        parentId := some (sectionId i) }],
     [{ fromId := sectionId i, toId := itemId i j, type := "secondary".data }])
  | .subsection t subIdx subItems =>
    let subItemRadius : ℝ := 280 * 1.0
    let subItemAngleStep : ℝ := Real.pi * 1.2 / (max subItems.length 1 : ℕ)
    let subBaseAngle := itemAngle -
      subItemAngleStep * ((subItems.length : ℝ) - 1) / 2
    ({ id := subsectionId i subIdx, text := t, x := ix, y := iy, level := 3,
       type := "subsection".data, width := 180 * 0.9, height := 60 * 0.9,
       parentId := some (sectionId i) } ::
     mapWithIndex (fun k s =>
        let subItemAngle := subBaseAngle + (k : ℝ) * subItemAngleStep
        { id := subitemId i subIdx k, text := s,
          x := ix + Real.cos subItemAngle * subItemRadius,
          y := iy + Real.sin subItemAngle * subItemRadius,
          level := 4, type := "subitem".data,
          width := 180 * 0.7, height := 60 * 0.7,
          parentId := some (subsectionId i subIdx) }) 0 subItems,
     { fromId := sectionId i, toId := subsectionId i subIdx,
       type := "secondary".data } ::
     mapWithIndex (fun k _ =>
        ({ fromId := subsectionId i subIdx, toId := subitemId i subIdx k,
           type := "tertiary".data } : RConn)) 0 subItems)

/-- `MindMapRenderer.layoutItemsRadially`: place the items of section `i`
on an arc of up to 1.4 pi around the section, with angular step at least
the configured minimum of 0.5, the arc centered on the section's angle. -/
noncomputable def layoutItemsRadially (items : List AllItem)
    (sx sy θ : ℝ) (i : Nat) : List RNode × List RConn :=
  let itemRadius : ℝ := 280 * 2.8
  let totalAngleSpan : ℝ := Real.pi * 1.4
  let idealAngleStep := totalAngleSpan / (max items.length 1 : ℕ)
  let itemAngleStep := max idealAngleStep 0.5
  let actualSpan := min totalAngleSpan (itemAngleStep * ((items.length : ℝ) - 1))
  let baseAngle := θ - actualSpan / 2
  let blocks := mapWithIndex
    (radialEntry itemRadius itemAngleStep baseAngle sx sy i) 0 items
  ((blocks.map Prod.fst).flatten, (blocks.map Prod.snd).flatten)

/-- `MindMapRenderer.layoutSubsectionsAsIntermediateLevel`: the
subsections of section `i` are placed on an arc of 0.8 pi centered on the
section's angle at radius 280 * 1.2, each followed by its bullets on an
arc of 0.6 pi at radius 280 * 0.8 around the subsection. -/
noncomputable def layoutSubsectionsAsIntermediateLevel
    (subs : List AllItem) (sx sy θ : ℝ) (i : Nat) :
    List RNode × List RConn :=
  let intermediateRadius : ℝ := 280 * 1.2
  let subsectionAngleStep : ℝ := Real.pi * 0.8 / (max 1 (subs.length - 1) : ℕ)
  let startAngle := θ - Real.pi * 0.4
  let blocks := mapWithIndex (fun j sub =>
    let subsectionAngle := startAngle + (j : ℝ) * subsectionAngleStep
    let ssx := sx + Real.cos subsectionAngle * intermediateRadius
    let ssy := sy + Real.sin subsectionAngle * intermediateRadius
    let subItems := match sub with
      | AllItem.item _ => []
      | AllItem.subsection _ _ its => its
    let bulletRadius : ℝ := 280 * 0.8
    let bulletAngleStep : ℝ := Real.pi * 0.6 / (max 1 (subItems.length - 1) : ℕ)
    let bulletStartAngle := subsectionAngle - Real.pi * 0.3
    (({ id := subsectionId i j, text := sub.text, x := ssx, y := ssy,
        level := 2, type := "subsection".data,
        width := 180 * 0.9, height := 60 * 0.8,
        parentId := some (sectionId i) } : RNode) ::
     mapWithIndex (fun k s =>
        let bulletAngle := bulletStartAngle + (k : ℝ) * bulletAngleStep
        ({ id := bulletId i j k, text := s,
           x := ssx + Real.cos bulletAngle * bulletRadius,
           y := ssy + Real.sin bulletAngle * bulletRadius,
           level := 3, type := "subitem".data,
           width := 180 * 0.8, height := 60 * 0.7,
           parentId := some (subsectionId i j) } : RNode)) 0 subItems,
     ({ fromId := sectionId i, toId := subsectionId i j,
        type := "secondary".data } : RConn) ::
     mapWithIndex (fun k _ =>
        ({ fromId := subsectionId i j, toId := bulletId i j k,
           type := "tertiary".data } : RConn)) 0 subItems)) 0 subs
  ((blocks.map Prod.fst).flatten, (blocks.map Prod.snd).flatten)

/-- The body of the section loop of `MindMapRenderer.processData` for
section `i` of `n`: the section node on the circle of radius
280 * 2 around the center (600, 400) at angle `i * (2 pi / n)`, its
primary connection, then its subsections as an intermediate level (when
present) and its direct bullets, stacked vertically when their count
reaches the bullet threshold 2 and fanned radially otherwise. -/
noncomputable def processSection (n : Nat) (i : Nat) (sec : Section) :
    List RNode × List RConn :=
  let angleStep : ℝ := 2 * Real.pi / (n : ℝ)
  let θ := (i : ℝ) * angleStep
  let sx := 600 + Real.cos θ * (280 * 2)
  let sy := 400 + Real.sin θ * (280 * 2)
  let sectionNode : RNode :=
    { id := sectionId i, text := sec.title, x := sx, y := sy, level := 1,
      type := "section".data, width := 180, height := 60,
      parentId := some "root".data }
  let sectionConn : RConn :=
    { fromId := "root".data, toId := sectionId i, type := "primary".data }
  let allItems :=
    sec.items.map AllItem.item ++
    mapWithIndex (fun j sub => AllItem.subsection sub.title j sub.items) 0
      sec.subsections
  let bulletItems := allItems.filter AllItem.isItem
  let subsectionItems := allItems.filter (fun a => !a.isItem)
  let subPart :=
    if 0 < subsectionItems.length then
      layoutSubsectionsAsIntermediateLevel subsectionItems sx sy θ i
    else ([], [])
  let bulletPart :=
    if 0 < bulletItems.length then
      if 2 ≤ bulletItems.length then
        layoutBulletsVertically bulletItems sx sy θ i
      else
        layoutItemsRadially bulletItems sx sy θ i
    else ([], [])
  (sectionNode :: (subPart.1 ++ bulletPart.1),
   sectionConn :: (subPart.2 ++ bulletPart.2))

/-- `MindMapRenderer.processData`: the root node at the canvas center
(600, 400) followed by the per-section blocks in order. -/
noncomputable def processData (title : List Char) (sections : List Section) :
    List RNode × List RConn :=
  let rootNode : RNode :=
    { id := "root".data,
      text := if title.isEmpty then "Mapa Mental".data else title,
      x := 600, y := 400, level := 0, type := "root".data,
      width := 180 * 1.2, height := 60 * 1.2, parentId := none }
  (rootNode :: flatMapIdx (fun i sec => (processSection sections.length i sec).1) 0 sections,
   flatMapIdx (fun i sec => (processSection sections.length i sec).2) 0 sections)

end Renderer

namespace Mark2

/-- The claim-side reading of "contains a level-1 header": some line of
the input begins with `# `. -/
def hasH1Line (cs : List Char) : Bool :=
  (List.splitOn '\n' cs).any (fun l => l.take 2 == ['#', ' '])

end Mark2

namespace Renderer

open Mark2

/-- The discrete viewport operations of MindMapRenderer. -/
inductive ROp where
  | zin : ROp
  | zout : ROp
  | wheelOp (deltaY : ℚ) : ROp

/-- Apply one renderer viewport operation. -/
def applyROp (st : RState) : ROp → RState
  | ROp.zin => zoomIn st
  | ROp.zout => zoomOut st
  | ROp.wheelOp d => wheel st d

end Renderer

namespace Organism

open Mark2

/-- The discrete viewport operations of the MindMap organism. -/
inductive MOp where
  | zin : MOp
  | zout : MOp
  | wheelOp (deltaY : ℚ) : MOp

/-- Apply one organism viewport operation. -/
def applyMOp (st : MState) : MOp → MState
  | MOp.zin => zoomIn st
  | MOp.zout => zoomOut st
  | MOp.wheelOp d => handleWheel st d

end Organism

namespace Mark2

/-- Equality of all node fields except the mutable coordinates. -/
def sameExceptXY (a b : GNode) : Prop :=
  a.id = b.id ∧ a.text = b.text ∧ a.level = b.level ∧
  a.parent = b.parent ∧ a.children = b.children

end Mark2

namespace Generator

open Mark2

/-- The heap entry at `j` has both coordinates assigned. -/
def xyAssignedAt (h : List GNode) (j : Nat) : Prop :=
  ∃ n, h[j]? = some n ∧ n.x.isSome ∧ n.y.isSome

end Generator

namespace Renderer

open Mark2

/-- The section node of `processData` for section `i` of `n`, placed on
the circle of radius 280 * 2 around (600, 400) at angle
`i * (2 pi / n)`. -/
noncomputable def sectionNodeOf (n i : Nat) (sec : Section) : RNode :=
  { id := sectionId i, text := sec.title,
    x := 600 + Real.cos ((i : ℝ) * (2 * Real.pi / (n : ℝ))) * (280 * 2),
    y := 400 + Real.sin ((i : ℝ) * (2 * Real.pi / (n : ℝ))) * (280 * 2),
    level := 1, type := "section".data, width := 180, height := 60,
    parentId := some "root".data }

end Renderer

namespace Mark2

/-- The generator node of a section that has no items and no
subsections. -/
def secGNode (sid : Nat) (sec : Section) : GNode :=
  { id := sid, text := sec.title, level := 2, parent := some 1,
    children := [] }

/-- A concrete empty section used to evaluate the layout claims. -/
def sampleSection : Section :=
  { title := "A".data, items := [], subsections := [], startIndex := 4 }

/-- A concrete one-section document used to evaluate the layout claims. -/
def sampleDoc : RootDoc :=
  { title := "T".data, sections := [sampleSection], items := [] }

/-- A concrete section with a single direct item, for evaluating the
radial branch. -/
def c9SampleOne : Section := ⟨"A".data, ["x".data], [], 4⟩

/-- A concrete section with two direct items, for evaluating the
vertical branch. -/
def c9SampleTwo : Section := ⟨"B".data, ["x".data, "y".data], [], 4⟩

end Mark2

/-- C1: during a drag (Panning state), a pointer move of screen delta
(10, 0) at scale 2 increments the renderer's pan by 10 / 2 = 5, but the
MindMap organism's `handlePointerMove` increments its translation by the
raw screen delta 10, not 10 / 2 — evaluating both implementations at the
failing input. -/
theorem c1_pan_delta_scale_division :
    (Renderer.mouseMove ⟨2, 0, 0, true, 0, 0⟩ 10 0).panX = 5 ∧
    (Organism.handlePointerMove ⟨2, 0, 0, true, 0, 0⟩ 10 0).translateX = 10 ∧
    (10 : ℚ) ≠ 10 / 2 := by
  refine ⟨?_, ?_, by norm_num⟩
  · simp [Renderer.mouseMove]
    norm_num
  · simp [Organism.handlePointerMove]

/-- C4: on the input `# T\n## A\n- x\n## B\n- y`, the parser finds item
`x` at offset 9 and item `y` at offset 18, sections A and B start at
offsets 4 and 13, and the association loop places `x` in Section A's
direct item list and `y` in Section B's (neither on the title). -/
theorem c4_association_by_offsets :
    Mark2.parseList "# T\n## A\n- x\n## B\n- y".data =
      [{ text := "x".data, ordered := false, index := 9 },
       { text := "y".data, ordered := false, index := 18 }] ∧
    (Mark2.parseMarkdown "# T\n## A\n- x\n## B\n- y".data).sections =
      [{ title := "A".data, items := ["x".data], subsections := [],
         startIndex := 4 },
       { title := "B".data, items := ["y".data], subsections := [],
         startIndex := 13 }] ∧
    (Mark2.parseMarkdown "# T\n## A\n- x\n## B\n- y".data).title = "T".data := by
  refine ⟨by decide, by decide, by decide⟩

/-- C3 counterexample: the input `## A` contains no level-1 header (no
line begins with `# `), yet `parseMarkdown` returns no error string at
all — its first header, of level 2, is promoted to the title. -/
theorem c3_counterexample_level2_only_header :
    Mark2.hasH1Line "## A".data = false ∧
    (Mark2.parseMarkdown "## A".data).error = none ∧
    (Mark2.parseMarkdown "## A".data).title = "A".data := by
  refine ⟨by decide, by decide, by decide⟩

/-- C3 (amended): for every input in which the header regex finds no
header of any level 1-6, `parseMarkdown` returns the empty-tree result:
title `Mind Map`, no sections, no nodes, and the non-null explanatory
error string `No headers found in markdown`. -/
theorem c3_no_headers_error_result (cs : List Char)
    (h : Mark2.parseHeaders cs = []) :
    Mark2.parseMarkdown cs =
      { title := "Mind Map".data, sections := [], nodes := [],
        error := some "No headers found in markdown".data } := by
  simp [Mark2.parseMarkdown, h]

/-- C3 witness: the headerless input `plain prose` evaluates to the
empty-tree error result. -/
theorem c3_no_headers_error_result_witness :
    Mark2.parseHeaders "plain prose".data = [] ∧
    Mark2.parseMarkdown "plain prose".data =
      { title := "Mind Map".data, sections := [], nodes := [],
        error := some "No headers found in markdown".data } :=
  ⟨by decide, c3_no_headers_error_result _ (by decide)⟩

namespace Mark2

/-- A list map with all-some entries keeps its length under `filterMap`. -/
theorem length_filterMap_all_some {A B : Type} (f : A → Option B) :
    ∀ l : List A, (∀ a ∈ l, (f a).isSome) →
      (l.filterMap f).length = l.length := by
  intro l
  induction l with
  | nil => intro _; rfl
  | cons a rest ih =>
    intro h
    have ha := h a (by simp)
    rcases hfa : f a with _ | b
    · rw [hfa] at ha; simp at ha
    · rw [List.filterMap_cons_some hfa]
      simp only [List.length_cons]
      rw [ih (fun x hx => h x (by simp [hx]))]

/-- Elimination principle for membership in `mapWithIndex`. -/
theorem mem_mapWithIndex {A B : Type} (f : Nat → A → B) :
    ∀ (i : Nat) (l : List A) (b : B), b ∈ mapWithIndex f i l →
      ∃ j a, a ∈ l ∧ b = f j a := by
  intro i l
  induction l generalizing i with
  | nil => intro b hb; simp [mapWithIndex] at hb
  | cons a rest ih =>
    intro b hb
    simp only [mapWithIndex, List.mem_cons] at hb
    rcases hb with hb | hb
    · exact ⟨i, a, by simp, hb⟩
    · rcases ih (i + 1) b hb with ⟨j, a', ha', hb'⟩
      exact ⟨j, a', by simp [ha'], hb'⟩

/-- Monotonicity of a bounded existential along a list inclusion. -/
theorem exists_mem_mono {A : Type} {l l' : List A}
    (h : ∀ x ∈ l, x ∈ l') (P : A → Prop) :
    (∃ m ∈ l, P m) → ∃ m ∈ l', P m := by
  rintro ⟨m, hm, hp⟩
  exact ⟨m, h m hm, hp⟩

/-- Every node of a subsection block has a parent id that is nonzero and
is either the given section id or the id of a node inside the block
itself. -/
theorem buildSubBlocks_parents (pid : Nat) (hpid : pid ≠ 0) :
    ∀ (subs : List Subsection) (startId : Nat), 1 ≤ startId →
      ∀ n ∈ buildSubBlocks pid startId subs,
        ∃ p, n.parent = some p ∧ p ≠ 0 ∧
          (p = pid ∨ ∃ m ∈ buildSubBlocks pid startId subs, m.id = p) := by
  intro subs
  induction subs with
  | nil => intro startId _ n hn; simp [buildSubBlocks] at hn
  | cons sub rest ih =>
    intro startId hs n hn
    have hsub : ∀ x ∈ buildSubNodes startId pid sub,
        x ∈ buildSubBlocks pid startId (sub :: rest) := by
      intro x hx
      rw [buildSubBlocks, List.mem_append]
      exact Or.inl hx
    have hrest : ∀ x ∈ buildSubBlocks pid (startId + subBlockSize sub) rest,
        x ∈ buildSubBlocks pid startId (sub :: rest) := by
      intro x hx
      rw [buildSubBlocks, List.mem_append]
      exact Or.inr hx
    have hheadmem : ∃ m ∈ buildSubBlocks pid startId (sub :: rest),
        m.id = startId := by
      rw [buildSubBlocks, buildSubNodes]
      exact ⟨_, List.mem_append_left _ (List.mem_cons_self _ _), rfl⟩
    rw [buildSubBlocks, List.mem_append] at hn
    rcases hn with hn | hn
    · rw [buildSubNodes, List.mem_cons] at hn
      rcases hn with hn | hn
      · exact ⟨pid, by rw [hn], hpid, Or.inl rfl⟩
      · rcases mem_mapWithIndex _ _ _ _ hn with ⟨j, t, _, hb⟩
        exact ⟨startId, by rw [hb], by omega, Or.inr hheadmem⟩
    · rcases ih (startId + subBlockSize sub) (by omega) n hn with
        ⟨p, hp, hp0, hcase⟩
      refine ⟨p, hp, hp0, ?_⟩
      rcases hcase with h | h
      · exact Or.inl h
      · exact Or.inr (exists_mem_mono hrest _ h)

/-- Every node of a section block has a parent id that is nonzero and is
either 1 (the root id) or the id of a node inside the block itself. -/
theorem buildSectionNodes_parents (sec : Section) (startId : Nat)
    (hs : 1 ≤ startId) :
    ∀ n ∈ buildSectionNodes startId sec,
      ∃ p, n.parent = some p ∧ p ≠ 0 ∧
        (p = 1 ∨ ∃ m ∈ buildSectionNodes startId sec, m.id = p) := by
  intro n hn
  have hheadmem : ∃ m ∈ buildSectionNodes startId sec, m.id = startId := by
    rw [buildSectionNodes]
    exact ⟨_, List.mem_cons_self _ _, rfl⟩
  have htail : ∀ x ∈ buildSubBlocks startId (startId + 1 + sec.items.length)
      sec.subsections, x ∈ buildSectionNodes startId sec := by
    intro x hx
    rw [buildSectionNodes, List.mem_cons]
    exact Or.inr (by rw [List.mem_append]; exact Or.inr hx)
  rw [buildSectionNodes, List.mem_cons] at hn
  rcases hn with hn | hn
  · exact ⟨1, by rw [hn], by omega, Or.inl rfl⟩
  · rw [List.mem_append] at hn
    rcases hn with hn | hn
    · rcases mem_mapWithIndex _ _ _ _ hn with ⟨j, t, _, hb⟩
      exact ⟨startId, by rw [hb], by omega, Or.inr hheadmem⟩
    · rcases buildSubBlocks_parents startId (by omega) sec.subsections
        (startId + 1 + sec.items.length) (by omega) n hn with ⟨p, hp, hp0, hcase⟩
      refine ⟨p, hp, hp0, ?_⟩
      rcases hcase with h | h
      · subst h
        exact Or.inr hheadmem
      · exact Or.inr (exists_mem_mono htail _ h)

/-- Every node of the section blocks has a parent id that is nonzero and
is either 1 or the id of a node among the blocks. -/
theorem buildSectionsNodes_parents :
    ∀ (secs : List Section) (startId : Nat), 1 ≤ startId →
      ∀ n ∈ buildSectionsNodes startId secs,
        ∃ p, n.parent = some p ∧ p ≠ 0 ∧
          (p = 1 ∨ ∃ m ∈ buildSectionsNodes startId secs, m.id = p) := by
  intro secs
  induction secs with
  | nil => intro startId _ n hn; simp [buildSectionsNodes] at hn
  | cons sec rest ih =>
    intro startId hs n hn
    have hleft : ∀ x ∈ buildSectionNodes startId sec,
        x ∈ buildSectionsNodes startId (sec :: rest) := by
      intro x hx
      rw [buildSectionsNodes, List.mem_append]
      exact Or.inl hx
    have hright : ∀ x ∈ buildSectionsNodes (startId + sectionSize sec) rest,
        x ∈ buildSectionsNodes startId (sec :: rest) := by
      intro x hx
      rw [buildSectionsNodes, List.mem_append]
      exact Or.inr hx
    rw [buildSectionsNodes, List.mem_append] at hn
    rcases hn with hn | hn
    · rcases buildSectionNodes_parents sec startId hs n hn with ⟨p, hp, hp0, hcase⟩
      refine ⟨p, hp, hp0, ?_⟩
      rcases hcase with h | h
      · exact Or.inl h
      · exact Or.inr (exists_mem_mono hleft _ h)
    · rcases ih (startId + sectionSize sec) (by omega) n hn with ⟨p, hp, hp0, hcase⟩
      refine ⟨p, hp, hp0, ?_⟩
      rcases hcase with h | h
      · exact Or.inl h
      · exact Or.inr (exists_mem_mono hright _ h)

/-- In the node list of `buildNodeStructure`, every non-root node's
parent id is the id of some node in the list. -/
theorem buildNodeStructure_parents (data : RootDoc) :
    ∀ n ∈ buildSectionsNodes 2 data.sections,
      ∃ p, n.parent = some p ∧ p ≠ 0 ∧
        ∃ m ∈ buildNodeStructure data, m.id = p := by
  intro n hn
  rcases buildSectionsNodes_parents data.sections 2 (by omega) n hn with
    ⟨p, hp, hp0, hcase⟩
  refine ⟨p, hp, hp0, ?_⟩
  rcases hcase with h | h
  · subst h
    rw [buildNodeStructure]
    exact ⟨_, List.mem_cons_self _ _, rfl⟩
  · refine exists_mem_mono ?_ _ h
    intro x hx
    rw [buildNodeStructure, List.mem_cons]
    exact Or.inr hx

/-- `connFor` succeeds on a node whose parent id is nonzero and present. -/
theorem connFor_isSome (nodes : List GNode) (n : GNode) (p : Nat)
    (hp : n.parent = some p) (hp0 : p ≠ 0)
    (hm : ∃ m ∈ nodes, m.id = p) : (connFor nodes n).isSome := by
  rcases hm with ⟨m, hm, hmid⟩
  rcases hfind : nodes.find? (fun x => x.id == p) with _ | q
  · rw [List.find?_eq_none] at hfind
    exact absurd (by simp [hmid]) (hfind m hm)
  · simp [connFor, hp, hp0, hfind]

end Mark2

/-- C2: for every parsed document, `generateConnections` on the node list
of `buildNodeStructure` returns exactly one connection per non-root node
(`nodeCount - 1` in total), and both endpoints of every returned
connection are ids of nodes present in the list. -/
theorem c2_connections_count_and_endpoints (data : Mark2.RootDoc) :
    (Mark2.generateConnections (Mark2.buildNodeStructure data)).length + 1 =
      (Mark2.buildNodeStructure data).length ∧
    (Mark2.generateConnections (Mark2.buildNodeStructure data)).all
      (fun c => (Mark2.buildNodeStructure data).any
        (fun m => m.id == c.fromId)) = true ∧
    (Mark2.generateConnections (Mark2.buildNodeStructure data)).all
      (fun c => (Mark2.buildNodeStructure data).any
        (fun m => m.id == c.toId)) = true := by
  have hmain : ∀ c ∈ Mark2.generateConnections (Mark2.buildNodeStructure data),
      (∃ m ∈ Mark2.buildNodeStructure data, m.id = c.fromId) ∧
      (∃ m ∈ Mark2.buildNodeStructure data, m.id = c.toId) := by
    intro c hc
    rw [Mark2.generateConnections] at hc
    rcases List.mem_filterMap.mp hc with ⟨n, hn, hcf⟩
    rcases hpar : n.parent with _ | p
    · simp only [Mark2.connFor, hpar] at hcf
      exact Option.noConfusion hcf
    · rcases hfind : (Mark2.buildNodeStructure data).find?
          (fun x => x.id == p) with _ | q
      · simp only [Mark2.connFor, hpar, hfind] at hcf
        by_cases hb : (p == 0) = true
        · rw [if_pos hb] at hcf
          exact Option.noConfusion hcf
        · rw [if_neg hb] at hcf
          exact Option.noConfusion hcf
      · simp only [Mark2.connFor, hpar, hfind] at hcf
        by_cases hb : (p == 0) = true
        · rw [if_pos hb] at hcf
          exact Option.noConfusion hcf
        · rw [if_neg hb] at hcf
          have hc' := Option.some.inj hcf
          constructor
          · refine ⟨q, List.mem_of_find?_eq_some hfind, ?_⟩
            rw [← hc']
          · refine ⟨n, hn, ?_⟩
            rw [← hc']
  refine ⟨?_, ?_, ?_⟩
  · rw [Mark2.generateConnections]
    have hsplit : Mark2.buildNodeStructure data =
        ({ id := 1, text := data.title, level := 1, parent := none,
           children := Mark2.sectionIds 2 data.sections } : Mark2.GNode) ::
        Mark2.buildSectionsNodes 2 data.sections := rfl
    rw [hsplit, List.filterMap_cons_none rfl, List.length_cons]
    rw [Mark2.length_filterMap_all_some]
    intro n hn
    rcases Mark2.buildNodeStructure_parents data n hn with ⟨p, hp, hp0, hm⟩
    exact Mark2.connFor_isSome _ n p hp hp0 hm
  · rw [List.all_eq_true]
    intro c hc
    rcases (hmain c hc).1 with ⟨m, hm, hmid⟩
    rw [List.any_eq_true]
    exact ⟨m, hm, by simp [hmid]⟩
  · rw [List.all_eq_true]
    intro c hc
    rcases (hmain c hc).2 with ⟨m, hm, hmid⟩
    rw [List.any_eq_true]
    exact ⟨m, hm, by simp [hmid]⟩

/-- C7 counterexample: `MindMapRenderer.resetView` on a single node at
(500, 500) with box 100 by 100 in a 1200 by 800 container produces zoom
1.9, not scale 1 — it performs the fit-to-content transform instead of an
unconditional reset. -/
theorem c7_counterexample_renderer_resetView :
    (Renderer.resetView [⟨500, 500, some 100, some 100⟩] 1200 800
        ⟨1, 0, 0, false, 0, 0⟩).zoom = 19 / 10 ∧
    (19 / 10 : ℚ) ≠ 1 ∧
    (Renderer.resetView [⟨500, 500, some 100, some 100⟩] 1200 800
        ⟨1, 0, 0, false, 0, 0⟩).panX = -350 ∧
    (-350 : ℚ) ≠ 0 := by
  refine ⟨?_, by norm_num, ?_, by norm_num⟩
  · norm_num [Renderer.resetView, Renderer.fitToView, Renderer.boxMinX,
      Renderer.boxMaxX, Renderer.boxMinY, Renderer.boxMaxY, Renderer.vLeft,
      Renderer.vRight, Renderer.vTop, Renderer.vBottom, min_def, max_def]
  · norm_num [Renderer.resetView, Renderer.fitToView, Renderer.boxMinX,
      Renderer.boxMaxX, Renderer.boxMinY, Renderer.boxMaxY, Renderer.vLeft,
      Renderer.vRight, Renderer.vTop, Renderer.vBottom, min_def, max_def]

/-- C7 (amended): `MindMap.resetView` sets scale 1 and pan (0, 0)
unconditionally, independent of the nodes; `MindMapRenderer.resetView`
instead delegates to `fitToView` (the fit-to-content transform), so its
result depends on the current node set — on an empty node set it leaves
the state unchanged, while a single node at (500, 500) drives the zoom to
1.9. -/
theorem c7_resetView_amended :
    (∀ st : Organism.MState, Organism.resetView st =
      { st with scale := 1, translateX := 0, translateY := 0 }) ∧
    (∀ (nodes : List Renderer.VNode) (cw ch : ℚ) (st : Renderer.RState),
      Renderer.resetView nodes cw ch st = Renderer.fitToView nodes cw ch st) ∧
    (∀ (cw ch : ℚ) (st : Renderer.RState),
      Renderer.resetView [] cw ch st = st) ∧
    (Renderer.resetView [⟨500, 500, some 100, some 100⟩] 1200 800
        ⟨1, 0, 0, false, 0, 0⟩).zoom ≠ 1 := by
  refine ⟨fun st => rfl, fun nodes cw ch st => rfl, fun cw ch st => rfl, ?_⟩
  norm_num [Renderer.resetView, Renderer.fitToView, Renderer.boxMinX,
      Renderer.boxMaxX, Renderer.boxMinY, Renderer.boxMaxY, Renderer.vLeft,
      Renderer.vRight, Renderer.vTop, Renderer.vBottom, min_def, max_def]

namespace Mark2

/-- An invariant preserved by every step is preserved by a `foldl` over
any operation sequence. -/
theorem foldl_inv {S O : Type} (inv : S → Prop) (f : S → O → S)
    (h : ∀ s o, inv s → inv (f s o)) :
    ∀ (ops : List O) (s : S), inv s → inv (ops.foldl f s) := by
  intro ops
  induction ops with
  | nil => intro s hs; exact hs
  | cons o rest ih => intro s hs; exact ih (f s o) (h s o hs)

/-- Iterating `w ↦ min h (w * a)` with a factor `a ≥ 1` reaches the cap
`h` exactly, once the unclamped product has passed it. -/
theorem iterate_min_mul (a h : ℚ) (ha : 1 ≤ a) (h0 : 0 ≤ h) :
    ∀ (k : ℕ) (z : ℚ), z ≤ h → h ≤ z * a ^ k →
      (fun w => min h (w * a))^[k] z = h := by
  intro k
  induction k with
  | zero =>
    intro z h1 h2
    rw [pow_zero, mul_one] at h2
    simpa using le_antisymm h1 h2
  | succ k ih =>
    intro z h1 h2
    rw [Function.iterate_succ_apply]
    rcases le_or_lt h (z * a) with hc | hc
    · have hmin : min h (z * a) = h := min_eq_left hc
      rw [hmin]
      refine ih h le_rfl ?_
      have hk : (1 : ℚ) ≤ a ^ k := one_le_pow₀ ha
      nlinarith
    · have hmin : min h (z * a) = z * a := min_eq_right (le_of_lt hc)
      rw [hmin]
      refine ih (z * a) (le_of_lt hc) ?_
      calc h ≤ z * a ^ (k + 1) := h2
        _ = z * a * a ^ k := by ring

/-- Iterating `w ↦ max l (w * b)` with a factor `0 ≤ b ≤ 1` reaches the
floor `l` exactly, once the unclamped product has passed it. -/
theorem iterate_max_mul (b l : ℚ) (hb0 : 0 ≤ b) (hb : b ≤ 1) (hl : 0 ≤ l) :
    ∀ (k : ℕ) (z : ℚ), l ≤ z → z * b ^ k ≤ l →
      (fun w => max l (w * b))^[k] z = l := by
  intro k
  induction k with
  | zero =>
    intro z h1 h2
    rw [pow_zero, mul_one] at h2
    simpa using le_antisymm h2 h1
  | succ k ih =>
    intro z h1 h2
    rw [Function.iterate_succ_apply]
    rcases le_or_lt (z * b) l with hc | hc
    · have hmax : max l (z * b) = l := max_eq_left hc
      rw [hmax]
      refine ih l le_rfl ?_
      have hk : b ^ k ≤ 1 := pow_le_one₀ hb0 hb
      nlinarith
    · have hmax : max l (z * b) = z * b := max_eq_right (le_of_lt hc)
      rw [hmax]
      refine ih (z * b) (le_of_lt hc) ?_
      calc z * b * b ^ k = z * b ^ (k + 1) := by ring
        _ ≤ l := h2

/-- Iterating `w ↦ max l (w / a)` with a divisor `a ≥ 1` reaches the
floor `l` exactly, once the unclamped quotient has passed it. -/
theorem iterate_max_div (a l : ℚ) (ha : 1 ≤ a) (hl : 0 ≤ l) :
    ∀ (k : ℕ) (z : ℚ), l ≤ z → z / a ^ k ≤ l →
      (fun w => max l (w / a))^[k] z = l := by
  intro k
  induction k with
  | zero =>
    intro z h1 h2
    rw [pow_zero, div_one] at h2
    simpa using le_antisymm h2 h1
  | succ k ih =>
    intro z h1 h2
    have ha0 : (0 : ℚ) < a := lt_of_lt_of_le one_pos ha
    have hak : (0 : ℚ) < a ^ k := pow_pos ha0 k
    rw [Function.iterate_succ_apply]
    rcases le_or_lt (z / a) l with hc | hc
    · have hmax : max l (z / a) = l := max_eq_left hc
      rw [hmax]
      refine ih l le_rfl ?_
      rw [div_le_iff₀ hak]
      have hk1 : (1 : ℚ) ≤ a ^ k := one_le_pow₀ ha
      nlinarith
    · have hmax : max l (z / a) = z / a := max_eq_right (le_of_lt hc)
      rw [hmax]
      refine ih (z / a) (le_of_lt hc) ?_
      calc z / a / a ^ k = z / a ^ (k + 1) := by
            rw [div_div, ← pow_succ']
        _ ≤ l := h2

end Mark2

namespace Renderer

open Mark2

/-- Any renderer zoom operation keeps the zoom within [0.1, 3]. -/
theorem rendererOp_zoom_bounds (st : RState) (op : ROp)
    (h1 : 0.1 ≤ st.zoom) (h2 : st.zoom ≤ 3) :
    0.1 ≤ (applyROp st op).zoom ∧ (applyROp st op).zoom ≤ 3 := by
  cases op with
  | zin =>
    refine ⟨le_min (by norm_num) (by nlinarith), min_le_left _ _⟩
  | zout =>
    constructor
    · exact le_trans (by norm_num) (le_max_left _ _)
    · exact max_le (by norm_num) (by nlinarith)
  | wheelOp d =>
    constructor
    · exact le_max_left _ _
    · exact max_le (by norm_num) (min_le_left _ _)

/-- Zoom projection of an iterated `zoomIn`. -/
theorem rendererZoomIn_iter_zoom (m : ℕ) (st : RState) :
    (zoomIn^[m] st).zoom = (fun w => min 3 (w * 1.2))^[m] st.zoom := by
  induction m generalizing st with
  | zero => rfl
  | succ m ih =>
    rw [Function.iterate_succ_apply, Function.iterate_succ_apply, ih]
    rfl

/-- Zoom projection of an iterated `zoomOut`. -/
theorem rendererZoomOut_iter_zoom (m : ℕ) (st : RState) :
    (zoomOut^[m] st).zoom = (fun w => max 0.2 (w * 0.8))^[m] st.zoom := by
  induction m generalizing st with
  | zero => rfl
  | succ m ih =>
    rw [Function.iterate_succ_apply, Function.iterate_succ_apply, ih]
    rfl

end Renderer

namespace Organism

open Mark2

/-- Any organism zoom operation keeps the scale within [0.1, 3]. -/
theorem organismOp_scale_bounds (st : MState) (op : MOp)
    (h1 : 0.1 ≤ st.scale) (h2 : st.scale ≤ 3) :
    0.1 ≤ (applyMOp st op).scale ∧ (applyMOp st op).scale ≤ 3 := by
  cases op with
  | zin =>
    refine ⟨le_min (by norm_num) (by nlinarith), min_le_left _ _⟩
  | zout =>
    constructor
    · exact le_max_left _ _
    · refine max_le (by norm_num) ?_
      rw [div_le_iff₀ (by norm_num : (0 : ℚ) < 1.2)]
      nlinarith
  | wheelOp d =>
    constructor
    · exact le_max_left _ _
    · exact max_le (by norm_num) (min_le_left _ _)

/-- Scale projection of an iterated `zoomIn`. -/
theorem organismZoomIn_iter_scale (m : ℕ) (st : MState) :
    (zoomIn^[m] st).scale = (fun w => min 3 (w * 1.2))^[m] st.scale := by
  induction m generalizing st with
  | zero => rfl
  | succ m ih =>
    rw [Function.iterate_succ_apply, Function.iterate_succ_apply, ih]
    rfl

/-- Scale projection of an iterated `zoomOut`. -/
theorem organismZoomOut_iter_scale (m : ℕ) (st : MState) :
    (zoomOut^[m] st).scale = (fun w => max 0.1 (w / 1.2))^[m] st.scale := by
  induction m generalizing st with
  | zero => rfl
  | succ m ih =>
    rw [Function.iterate_succ_apply, Function.iterate_succ_apply, ih]
    rfl

end Organism

namespace Mark2

/-- The multiplicative zoom-in update converges to the cap 3 after at
most 19 steps from anywhere in [0.1, 3], and then stays there. -/
theorem zoomInScalar_converges (z : ℚ) (h1 : 0.1 ≤ z) (h2 : z ≤ 3) :
    ∀ m : ℕ, 19 ≤ m → (fun w => min 3 (w * 1.2))^[m] z = 3 := by
  intro m hm
  obtain ⟨j, rfl⟩ : ∃ j, m = j + 19 := ⟨m - 19, by omega⟩
  rw [Function.iterate_add_apply]
  have hpow : (30 : ℚ) ≤ 1.2 ^ 19 := by norm_num
  have h19 : (fun w => min 3 (w * 1.2))^[19] z = 3 := by
    refine iterate_min_mul 1.2 3 (by norm_num) (by norm_num) 19 z h2 ?_
    nlinarith
  rw [h19]
  refine Function.iterate_fixed ?_ j
  norm_num [min_def]

/-- The renderer's multiplicative zoom-out update converges to its floor
0.2 after at most 19 steps from anywhere in [0.1, 3], and then stays
there. -/
theorem rendererOutScalar_converges (z : ℚ) (h1 : 0.1 ≤ z) (h2 : z ≤ 3) :
    ∀ m : ℕ, 19 ≤ m → (fun w => max 0.2 (w * 0.8))^[m] z = 0.2 := by
  intro m hm
  rcases le_or_lt 0.2 z with hz | hz
  · obtain ⟨j, rfl⟩ : ∃ j, m = j + 19 := ⟨m - 19, by omega⟩
    rw [Function.iterate_add_apply]
    have hpow : (0.8 : ℚ) ^ 19 ≤ 1 / 15 := by norm_num
    have h19 : (fun w => max 0.2 (w * 0.8))^[19] z = 0.2 := by
      refine iterate_max_mul 0.8 0.2 (by norm_num) (by norm_num) (by norm_num)
        19 z hz ?_
      nlinarith [pow_nonneg (by norm_num : (0 : ℚ) ≤ 0.8) 19]
    rw [h19]
    refine Function.iterate_fixed ?_ j
    norm_num [max_def]
  · obtain ⟨j, rfl⟩ : ∃ j, m = j + 1 := ⟨m - 1, by omega⟩
    rw [Function.iterate_add_apply]
    have h1step : (fun w => max 0.2 (w * 0.8))^[1] z = 0.2 := by
      have : z * 0.8 ≤ 0.2 := by nlinarith
      simp [max_eq_left this]
    rw [h1step]
    refine Function.iterate_fixed ?_ j
    norm_num [max_def]

/-- The organism's dividing zoom-out update converges to the floor 0.1
after at most 19 steps from anywhere in [0.1, 3], and then stays there. -/
theorem organismOutScalar_converges (z : ℚ) (h1 : 0.1 ≤ z) (h2 : z ≤ 3) :
    ∀ m : ℕ, 19 ≤ m → (fun w => max 0.1 (w / 1.2))^[m] z = 0.1 := by
  intro m hm
  obtain ⟨j, rfl⟩ : ∃ j, m = j + 19 := ⟨m - 19, by omega⟩
  rw [Function.iterate_add_apply]
  have hpow : (30 : ℚ) ≤ 1.2 ^ 19 := by norm_num
  have h19 : (fun w => max 0.1 (w / 1.2))^[19] z = 0.1 := by
    refine iterate_max_div 1.2 0.1 (by norm_num) (by norm_num) 19 z h1 ?_
    rw [div_le_iff₀ (by positivity)]
    nlinarith
  rw [h19]
  refine Function.iterate_fixed ?_ j
  norm_num [max_def]

end Mark2

/-- C6 counterexample: the renderer's `zoomOut` from scale 1 yields 0.8,
which is not 1 divided by 1.2; and its repeated application converges to
0.2, not to the 0.1 lower bound used by the renderer's wheel handler. -/
theorem c6_counterexample_renderer_zoomOut :
    (Renderer.zoomOut ⟨1, 0, 0, false, 0, 0⟩).zoom = 0.8 ∧
    (0.8 : ℚ) ≠ 1 / 1.2 ∧
    (Renderer.zoomOut^[19] ⟨1, 0, 0, false, 0, 0⟩).zoom = 0.2 ∧
    (0.2 : ℚ) ≠ 0.1 := by
  refine ⟨?_, by norm_num, ?_, by norm_num⟩
  · norm_num [Renderer.zoomOut, max_def]
  · rw [Renderer.rendererZoomOut_iter_zoom]
    exact Mark2.rendererOutScalar_converges 1 (by norm_num) (by norm_num) 19
      (le_refl _)

/-- C6 (amended): in the MindMap organism, zoomIn multiplies the scale by
1.2 and zoomOut divides it by 1.2, both clamped to [0.1, 3]; every
sequence of zoomIn / zoomOut / wheel operations keeps the scale within
[0.1, 3], and 19 or more repetitions of zoomIn (zoomOut) pin the scale
exactly at 3 (at 0.1).  In MindMapRenderer, zoomIn is the same but
zoomOut multiplies by 0.8 with floor 0.2 (not a division by 1.2); its
operation sequences also stay within [0.1, 3], repeated zoomIn pins the
zoom at 3, and repeated zoomOut pins it at 0.2. -/
theorem c6_zoom_clamp_amended :
    (∀ st : Organism.MState,
      (Organism.zoomIn st).scale = min 3 (st.scale * 1.2) ∧
      (Organism.zoomOut st).scale = max 0.1 (st.scale / 1.2)) ∧
    (∀ (ops : List Organism.MOp) (st : Organism.MState),
      0.1 ≤ st.scale → st.scale ≤ 3 →
      0.1 ≤ (ops.foldl Organism.applyMOp st).scale ∧
      (ops.foldl Organism.applyMOp st).scale ≤ 3) ∧
    (∀ st : Organism.MState, 0.1 ≤ st.scale → st.scale ≤ 3 →
      ∀ m : ℕ, 19 ≤ m →
      (Organism.zoomIn^[m] st).scale = 3 ∧
      (Organism.zoomOut^[m] st).scale = 0.1) ∧
    (∀ st : Renderer.RState,
      (Renderer.zoomIn st).zoom = min 3 (st.zoom * 1.2) ∧
      (Renderer.zoomOut st).zoom = max 0.2 (st.zoom * 0.8)) ∧
    (∀ (ops : List Renderer.ROp) (st : Renderer.RState),
      0.1 ≤ st.zoom → st.zoom ≤ 3 →
      0.1 ≤ (ops.foldl Renderer.applyROp st).zoom ∧
      (ops.foldl Renderer.applyROp st).zoom ≤ 3) ∧
    (∀ st : Renderer.RState, 0.1 ≤ st.zoom → st.zoom ≤ 3 →
      ∀ m : ℕ, 19 ≤ m →
      (Renderer.zoomIn^[m] st).zoom = 3 ∧
      (Renderer.zoomOut^[m] st).zoom = 0.2) := by
  refine ⟨fun st => ⟨rfl, rfl⟩, ?_, ?_, fun st => ⟨rfl, rfl⟩, ?_, ?_⟩
  · intro ops st hl hh
    exact Mark2.foldl_inv (fun s => 0.1 ≤ s.scale ∧ s.scale ≤ 3) _
      (fun s o hs => Organism.organismOp_scale_bounds s o hs.1 hs.2)
      ops st ⟨hl, hh⟩
  · intro st hl hh m hm
    constructor
    · rw [Organism.organismZoomIn_iter_scale]
      exact Mark2.zoomInScalar_converges st.scale hl hh m hm
    · rw [Organism.organismZoomOut_iter_scale]
      exact Mark2.organismOutScalar_converges st.scale hl hh m hm
  · intro ops st hl hh
    exact Mark2.foldl_inv (fun s => 0.1 ≤ s.zoom ∧ s.zoom ≤ 3) _
      (fun s o hs => Renderer.rendererOp_zoom_bounds s o hs.1 hs.2)
      ops st ⟨hl, hh⟩
  · intro st hl hh m hm
    constructor
    · rw [Renderer.rendererZoomIn_iter_zoom]
      exact Mark2.zoomInScalar_converges st.zoom hl hh m hm
    · rw [Renderer.rendererZoomOut_iter_zoom]
      exact Mark2.rendererOutScalar_converges st.zoom hl hh m hm

/-- C6 witness: the amended clamp and convergence facts evaluated from
the initial scale 1 with a concrete operation sequence and 19 steps. -/
theorem c6_zoom_clamp_amended_witness :
    ((0.1 : ℚ) ≤ 1 ∧ (1 : ℚ) ≤ 3 ∧ (19 : ℕ) ≤ 19) ∧
    (0.1 ≤ ([Organism.MOp.zin, Organism.MOp.zout, Organism.MOp.wheelOp 250].foldl
        Organism.applyMOp ⟨1, 0, 0, false, 0, 0⟩).scale ∧
     ([Organism.MOp.zin, Organism.MOp.zout, Organism.MOp.wheelOp 250].foldl
        Organism.applyMOp ⟨1, 0, 0, false, 0, 0⟩).scale ≤ 3) ∧
    (Organism.zoomIn^[19] ⟨1, 0, 0, false, 0, 0⟩).scale = 3 ∧
    (Organism.zoomOut^[19] ⟨1, 0, 0, false, 0, 0⟩).scale = 0.1 ∧
    (0.1 ≤ ([Renderer.ROp.zin, Renderer.ROp.zout, Renderer.ROp.wheelOp 250].foldl
        Renderer.applyROp ⟨1, 0, 0, false, 0, 0⟩).zoom ∧
     ([Renderer.ROp.zin, Renderer.ROp.zout, Renderer.ROp.wheelOp 250].foldl
        Renderer.applyROp ⟨1, 0, 0, false, 0, 0⟩).zoom ≤ 3) ∧
    (Renderer.zoomIn^[19] ⟨1, 0, 0, false, 0, 0⟩).zoom = 3 ∧
    (Renderer.zoomOut^[19] ⟨1, 0, 0, false, 0, 0⟩).zoom = 0.2 :=
  ⟨⟨by norm_num, by norm_num, le_refl _⟩,
   c6_zoom_clamp_amended.2.1 _ ⟨1, 0, 0, false, 0, 0⟩ (by norm_num) (by norm_num),
   (c6_zoom_clamp_amended.2.2.1 ⟨1, 0, 0, false, 0, 0⟩ (by norm_num) (by norm_num)
      19 (le_refl _)).1,
   (c6_zoom_clamp_amended.2.2.1 ⟨1, 0, 0, false, 0, 0⟩ (by norm_num) (by norm_num)
      19 (le_refl _)).2,
   c6_zoom_clamp_amended.2.2.2.2.1 _ ⟨1, 0, 0, false, 0, 0⟩ (by norm_num)
      (by norm_num),
   (c6_zoom_clamp_amended.2.2.2.2.2 ⟨1, 0, 0, false, 0, 0⟩ (by norm_num)
      (by norm_num) 19 (le_refl _)).1,
   (c6_zoom_clamp_amended.2.2.2.2.2 ⟨1, 0, 0, false, 0, 0⟩ (by norm_num)
      (by norm_num) 19 (le_refl _)).2⟩

/-- C8 counterexample: on a single node at (500, 500) in a 1200 by 800
view, `MindMap.fitToContent` computes scale 1 (its cap is 1 and it
applies no 0.95 factor), while the claimed formula
`clamp(min(containerW / boxW, containerH / boxH, maxScale) * 0.95,
minScale, maxScale)` evaluates to 2.85 even on the code's own box
(260 by 140, minZoom 0.1, maxZoom 3). -/
theorem c8_counterexample_organism_fitToContent :
    (Organism.fitToContent [(500, 500)] 1200 800
        ⟨1, 0, 0, false, 0, 0⟩).scale = 1 ∧
    max 0.1 (min 3 (min ((1200 : ℚ) / 260) (min ((800 : ℚ) / 140) 3) * 0.95))
      = 57 / 20 ∧
    (1 : ℚ) ≠ 57 / 20 := by
  refine ⟨?_, ?_, by norm_num⟩
  · norm_num [Organism.fitToContent, Organism.oMinX, Organism.oMaxX,
      Organism.oMinY, Organism.oMaxY, min_def, max_def]
  · norm_num [min_def, max_def]

/-- C8 (amended): both implementations are a no-op on zero nodes and set
the pan so that the expanded box center maps exactly to the container
center (for the single node at (500, 500), that point maps to the center
of a 1200 by 800 container in both).  The scale, however, differs:
`MindMapRenderer.fitToView` realizes the claimed formula
`clamp(min(containerW / boxW, containerH / boxH, maxScale) * 0.95,
minScale, maxScale)` with its own constants minScale 0.3 and maxScale 2
over the box expanded by the proportional margin of 80% of the node
size, while `MindMap.fitToContent` uses a flat padding of 50 and
`min(containerW / boxW, containerH / boxH, 1)` with no 0.95 factor and no
lower clamp. -/
theorem c8_fitToContent_amended :
    (∀ (cw ch : ℚ) (st : Renderer.RState),
      Renderer.fitToView [] cw ch st = st) ∧
    (∀ (vw vh : ℚ) (st : Organism.MState),
      Organism.fitToContent [] vw vh st = st) ∧
    (∀ (n : Renderer.VNode) (rest : List Renderer.VNode) (cw ch : ℚ)
        (st : Renderer.RState),
      (Renderer.fitToView (n :: rest) cw ch st).zoom =
        max 0.3 (min 2
          (min (cw / (Renderer.boxMaxX n rest - Renderer.boxMinX n rest))
            (min (ch / (Renderer.boxMaxY n rest - Renderer.boxMinY n rest)) 2)
            * 0.95)) ∧
      (Renderer.boxMinX n rest + Renderer.boxMaxX n rest) / 2 *
          (Renderer.fitToView (n :: rest) cw ch st).zoom +
        (Renderer.fitToView (n :: rest) cw ch st).panX = cw / 2 ∧
      (Renderer.boxMinY n rest + Renderer.boxMaxY n rest) / 2 *
          (Renderer.fitToView (n :: rest) cw ch st).zoom +
        (Renderer.fitToView (n :: rest) cw ch st).panY = ch / 2) ∧
    (∀ (e : ℚ × ℚ) (rest : List (ℚ × ℚ)) (vw vh : ℚ) (st : Organism.MState),
      (Organism.fitToContent (e :: rest) vw vh st).scale =
        min (vw / (Organism.oMaxX e rest - Organism.oMinX e rest + 100))
          (min (vh / (Organism.oMaxY e rest - Organism.oMinY e rest + 100)) 1) ∧
      (Organism.oMinX e rest + Organism.oMaxX e rest) / 2 *
          (Organism.fitToContent (e :: rest) vw vh st).scale +
        (Organism.fitToContent (e :: rest) vw vh st).translateX = vw / 2 ∧
      (Organism.oMinY e rest + Organism.oMaxY e rest) / 2 *
          (Organism.fitToContent (e :: rest) vw vh st).scale +
        (Organism.fitToContent (e :: rest) vw vh st).translateY = vh / 2) ∧
    (500 * (Renderer.fitToView [⟨500, 500, some 100, some 100⟩] 1200 800
        ⟨1, 0, 0, false, 0, 0⟩).zoom +
      (Renderer.fitToView [⟨500, 500, some 100, some 100⟩] 1200 800
        ⟨1, 0, 0, false, 0, 0⟩).panX = 600 ∧
     500 * (Organism.fitToContent [(500, 500)] 1200 800
        ⟨1, 0, 0, false, 0, 0⟩).scale +
      (Organism.fitToContent [(500, 500)] 1200 800
        ⟨1, 0, 0, false, 0, 0⟩).translateX = 600) := by
  refine ⟨fun cw ch st => rfl, fun vw vh st => rfl, ?_, ?_, ?_, ?_⟩
  · intro n rest cw ch st
    have hle : min (cw / (Renderer.boxMaxX n rest - Renderer.boxMinX n rest))
        (min (ch / (Renderer.boxMaxY n rest - Renderer.boxMinY n rest)) 2)
        * 0.95 ≤ 2 := by
      have h1 : min (cw / (Renderer.boxMaxX n rest - Renderer.boxMinX n rest))
          (min (ch / (Renderer.boxMaxY n rest - Renderer.boxMinY n rest)) 2) ≤ 2 :=
        le_trans (min_le_right _ _) (min_le_right _ _)
      nlinarith
    refine ⟨?_, ?_, ?_⟩
    · simp only [Renderer.fitToView]
      rw [min_eq_right hle]
    · simp only [Renderer.fitToView]
      ring
    · simp only [Renderer.fitToView]
      ring
  · intro e rest vw vh st
    refine ⟨?_, ?_, ?_⟩
    · simp only [Organism.fitToContent]
      norm_num
    · simp only [Organism.fitToContent]
      ring
    · simp only [Organism.fitToContent]
      ring
  · norm_num [Renderer.fitToView, Renderer.boxMinX, Renderer.boxMaxX,
      Renderer.boxMinY, Renderer.boxMaxY, Renderer.vLeft, Renderer.vRight,
      Renderer.vTop, Renderer.vBottom, min_def, max_def]
  · norm_num [Organism.fitToContent, Organism.oMinX, Organism.oMaxX,
      Organism.oMinY, Organism.oMaxY, min_def, max_def]

namespace Mark2

/-- `sameExceptXY` is reflexive. -/
theorem sameExceptXY_refl (a : GNode) : sameExceptXY a a :=
  ⟨rfl, rfl, rfl, rfl, rfl⟩

/-- `sameExceptXY` is transitive. -/
theorem sameExceptXY_trans {a b c : GNode} (h1 : sameExceptXY a b)
    (h2 : sameExceptXY b c) : sameExceptXY a c :=
  ⟨h1.1.trans h2.1, h1.2.1.trans h2.2.1, h1.2.2.1.trans h2.2.2.1,
   h1.2.2.2.1.trans h2.2.2.2.1, h1.2.2.2.2.trans h2.2.2.2.2⟩

/-- Pointwise reflexivity of the frame relation on whole lists. -/
theorem forall2_sameExceptXY_refl (l : List GNode) :
    List.Forall₂ sameExceptXY l l :=
  List.forall₂_same.mpr (fun a _ => sameExceptXY_refl a)

/-- Transitivity of the frame relation on whole lists. -/
theorem forall2_sameExceptXY_trans :
    ∀ {a b c : List GNode}, List.Forall₂ sameExceptXY a b →
      List.Forall₂ sameExceptXY b c → List.Forall₂ sameExceptXY a c := by
  intro a b c hab
  induction hab generalizing c with
  | nil =>
    intro hbc
    cases hbc
    exact List.Forall₂.nil
  | cons hxy _ ih =>
    intro hbc
    cases hbc with
    | cons hyz hrest => exact List.Forall₂.cons (sameExceptXY_trans hxy hyz) (ih hrest)

/-- Setting index `i` to a frame-equal record is a frame-preserving
update. -/
theorem forall2_frame_set :
    ∀ (l : List GNode) (i : Nat) (a' a : GNode), l[i]? = some a →
      sameExceptXY a' a → List.Forall₂ sameExceptXY (l.set i a') l := by
  intro l
  induction l with
  | nil => intro i a' a h; simp at h
  | cons x t ih =>
    intro i a' a h hr
    cases i with
    | zero =>
      simp only [List.getElem?_cons_zero, Option.some.injEq] at h
      subst h
      exact List.Forall₂.cons hr (forall2_sameExceptXY_refl t)
    | succ i =>
      simp only [List.getElem?_cons_succ] at h
      exact List.Forall₂.cons (sameExceptXY_refl x) (ih i a' a h hr)

end Mark2

namespace Generator

open Mark2

/-- `setXY` is a frame-preserving update. -/
theorem setXY_frame (heap : List GNode) (i : Nat) (xv yv : ℝ) :
    List.Forall₂ sameExceptXY (setXY heap i xv yv) heap := by
  rw [setXY]
  rcases hget : heap[i]? with _ | n
  · exact forall2_sameExceptXY_refl heap
  · exact forall2_frame_set heap i _ n hget ⟨rfl, rfl, rfl, rfl, rfl⟩

/-- The positioning loop is a frame-preserving update. -/
theorem positionGo_frame (radius angleStep : ℝ) (rootIdx : Nat) :
    ∀ (idxs : List Nat) (j : Nat) (heap : List GNode),
      List.Forall₂ sameExceptXY (positionGo radius angleStep rootIdx idxs j heap)
        heap := by
  intro idxs
  induction idxs with
  | nil => intro j heap; exact forall2_sameExceptXY_refl heap
  | cons idx rest ih =>
    intro j heap
    rw [positionGo]
    rcases hget : heap[idx]? with _ | node
    · exact ih (j + 1) heap
    · refine forall2_sameExceptXY_trans (ih (j + 1) _) ?_
      exact forall2_frame_set heap idx _ node hget ⟨rfl, rfl, rfl, rfl, rfl⟩

/-- One level-positioning pass is a frame-preserving update. -/
theorem positionLevelNodes_frame (idxs : List Nat) (level rootIdx : Nat)
    (sp : ℝ) (heap : List GNode) :
    List.Forall₂ sameExceptXY (positionLevelNodes idxs level rootIdx sp heap)
      heap :=
  positionGo_frame _ _ _ idxs 0 heap

/-- The whole per-level positioning fold is a frame-preserving update. -/
theorem foldl_position_frame (g : Nat → List Nat) (rootIdx : Nat) (sp : ℝ) :
    ∀ (ls : List Nat) (heap : List GNode),
      List.Forall₂ sameExceptXY
        (ls.foldl (fun h lvl => positionLevelNodes (g lvl) lvl rootIdx sp h) heap)
        heap := by
  intro ls
  induction ls with
  | nil => intro heap; exact forall2_sameExceptXY_refl heap
  | cons lvl rest ih =>
    intro heap
    rw [List.foldl_cons]
    exact forall2_sameExceptXY_trans (ih _)
      (positionLevelNodes_frame (g lvl) lvl rootIdx sp heap)

/-- The positioning loop preserves assignment of the coordinates at any
index: every write stores `some` coordinates. -/
theorem positionGo_xyAssigned (radius angleStep : ℝ) (rootIdx : Nat) :
    ∀ (idxs : List Nat) (j : Nat) (heap : List GNode) (k : Nat),
      xyAssignedAt heap k →
      xyAssignedAt (positionGo radius angleStep rootIdx idxs j heap) k := by
  intro idxs
  induction idxs with
  | nil => intro j heap k hk; exact hk
  | cons idx rest ih =>
    intro j heap k hk
    rw [positionGo]
    rcases hget : heap[idx]? with _ | node
    · exact ih (j + 1) heap k hk
    · refine ih (j + 1) _ k ?_
      by_cases hik : idx = k
      · subst hik
        have hlt : idx < heap.length := by
          rcases List.getElem?_eq_some_iff.mp hget with ⟨hl, _⟩
          exact hl
        exact ⟨_, List.getElem?_set_self hlt, rfl, rfl⟩
      · rcases hk with ⟨n, hn, hx, hy⟩
        exact ⟨n, by rw [List.getElem?_set_ne hik]; exact hn, hx, hy⟩

/-- The per-level fold preserves coordinate assignment at any index. -/
theorem foldl_position_xyAssigned (g : Nat → List Nat) (rootIdx : Nat)
    (sp : ℝ) :
    ∀ (ls : List Nat) (heap : List GNode) (k : Nat), xyAssignedAt heap k →
      xyAssignedAt
        (ls.foldl (fun h lvl => positionLevelNodes (g lvl) lvl rootIdx sp h) heap)
        k := by
  intro ls
  induction ls with
  | nil => intro heap k hk; exact hk
  | cons lvl rest ih =>
    intro heap k hk
    rw [List.foldl_cons]
    exact ih _ k (positionGo_xyAssigned _ _ _ (g lvl) 0 heap k hk)

/-- `setXY` at an existing index assigns both coordinates there. -/
theorem setXY_xyAssigned (heap : List GNode) (j : Nat) (xv yv : ℝ)
    (hj : j < heap.length) : xyAssignedAt (setXY heap j xv yv) j := by
  rw [setXY]
  rcases hget : heap[j]? with _ | n
  · rw [List.getElem?_eq_none_iff] at hget
    omega
  · exact ⟨_, List.getElem?_set_self hj, rfl, rfl⟩

end Generator

/-- C10: `calculateNodePositions` does not copy the node records: it
returns the same array of object references `0, ..., n-1` as its input,
mutates only the `x`/`y` fields on the shared objects (every other field
of every node is unchanged, witnessed by the pointwise frame relation),
and does assign coordinates in place — the found root node object carries
assigned `x`/`y` after the call. -/
theorem c10_calculateNodePositions_frame (heap : List Mark2.GNode)
    (cfg : Generator.GenConfig) (hne : heap ≠ [])
    (hroot : ∃ r ∈ heap, r.level = 1) :
    (Generator.calculateNodePositions heap cfg).1 = List.range heap.length ∧
    List.Forall₂ Mark2.sameExceptXY
      (Generator.calculateNodePositions heap cfg).2 heap ∧
    Generator.xyAssignedAt (Generator.calculateNodePositions heap cfg).2
      (heap.findIdx (fun n => n.level == 1)) := by
  rcases hroot with ⟨r, hr, hlvl⟩
  have hfind : heap.findIdx? (fun n => n.level == 1) =
      some (heap.findIdx (fun n => n.level == 1)) :=
    List.findIdx?_eq_some_of_exists ⟨r, hr, by simp [hlvl]⟩
  have hlt : heap.findIdx (fun n => n.level == 1) < heap.length :=
    (List.findIdx?_eq_some_iff_findIdx_eq.mp hfind).1
  have hempty : heap.isEmpty = false := by
    cases heap with
    | nil => exact absurd rfl hne
    | cons a t => rfl
  simp only [Generator.calculateNodePositions, hempty, hfind,
    Bool.false_eq_true, if_false]
  refine ⟨trivial, ?_, ?_⟩
  · exact Mark2.forall2_sameExceptXY_trans
      (Generator.foldl_position_frame _ _ _ _ _)
      (Generator.setXY_frame heap _ _ _)
  · exact Generator.foldl_position_xyAssigned _ _ _ _ _ _
      (Generator.setXY_xyAssigned heap _ _ _ hlt)

/-- C10 witness: a two-node heap (root of level 1 and one level-2 child)
is nonempty, contains a level-1 node, and the call returns the same
references with only the coordinates assigned. -/
theorem c10_calculateNodePositions_frame_witness :
    (([⟨1, [], 1, none, [2], none, none⟩,
       ⟨2, [], 2, some 1, [], none, none⟩] : List Mark2.GNode) ≠ []) ∧
    (∃ r ∈ ([⟨1, [], 1, none, [2], none, none⟩,
       ⟨2, [], 2, some 1, [], none, none⟩] : List Mark2.GNode), r.level = 1) ∧
    (Generator.calculateNodePositions
        [⟨1, [], 1, none, [2], none, none⟩,
         ⟨2, [], 2, some 1, [], none, none⟩] {}).1 =
      List.range ([⟨1, [], 1, none, [2], none, none⟩,
         ⟨2, [], 2, some 1, [], none, none⟩] : List Mark2.GNode).length ∧
    List.Forall₂ Mark2.sameExceptXY
      (Generator.calculateNodePositions
        [⟨1, [], 1, none, [2], none, none⟩,
         ⟨2, [], 2, some 1, [], none, none⟩] {}).2
      [⟨1, [], 1, none, [2], none, none⟩, ⟨2, [], 2, some 1, [], none, none⟩] ∧
    Generator.xyAssignedAt
      (Generator.calculateNodePositions
        [⟨1, [], 1, none, [2], none, none⟩,
         ⟨2, [], 2, some 1, [], none, none⟩] {}).2
      (([⟨1, [], 1, none, [2], none, none⟩,
         ⟨2, [], 2, some 1, [], none, none⟩] : List Mark2.GNode).findIdx
        (fun n => n.level == 1)) := by
  have h := c10_calculateNodePositions_frame
    [⟨1, [], 1, none, [2], none, none⟩, ⟨2, [], 2, some 1, [], none, none⟩] {}
    (List.cons_ne_nil _ _) ⟨_, List.mem_cons_self _ _, rfl⟩
  exact ⟨List.cons_ne_nil _ _, ⟨_, List.mem_cons_self _ _, rfl⟩,
    h.1, h.2.1, h.2.2⟩

namespace Mark2

/-- `getElem?` of `mapWithIndex`: entry `k` is `f` applied at index
`s + k`. -/
theorem mapWithIndex_getElem {A B : Type} (f : Nat → A → B) :
    ∀ (l : List A) (s k : Nat),
      (mapWithIndex f s l)[k]? = (l[k]?).map (f (s + k)) := by
  intro l
  induction l with
  | nil => intro s k; simp [mapWithIndex]
  | cons a rest ih =>
    intro s k
    cases k with
    | zero => simp [mapWithIndex]
    | succ k =>
      simp only [mapWithIndex, List.getElem?_cons_succ, ih (s + 1) k]
      have : s + 1 + k = s + (k + 1) := by omega
      rw [this]

/-- `mapWithIndex` preserves the length. -/
theorem mapWithIndex_length {A B : Type} (f : Nat → A → B) :
    ∀ (l : List A) (s : Nat), (mapWithIndex f s l).length = l.length := by
  intro l
  induction l with
  | nil => intro s; rfl
  | cons a rest ih => intro s; simp [mapWithIndex, ih]

/-- Membership in `flatMapIdx` from membership in the block of entry `i`. -/
theorem flatMapIdx_mem_of_get {A B : Type} (f : Nat → A → List B) :
    ∀ (l : List A) (s i : Nat) (a : A) (b : B),
      l[i]? = some a → b ∈ f (s + i) a → b ∈ flatMapIdx f s l := by
  intro l
  induction l with
  | nil => intro s i a b h; simp at h
  | cons x rest ih =>
    intro s i a b h hb
    cases i with
    | zero =>
      simp only [List.getElem?_cons_zero, Option.some.injEq] at h
      subst h
      rw [flatMapIdx, List.mem_append]
      exact Or.inl (by simpa using hb)
    | succ i =>
      simp only [List.getElem?_cons_succ] at h
      rw [flatMapIdx, List.mem_append]
      refine Or.inr (ih (s + 1) i a b h ?_)
      have : s + 1 + i = s + (i + 1) := by omega
      rw [this]
      exact hb

end Mark2

namespace Renderer

open Mark2

/-- A section with no items and no subsections contributes exactly its
section node and its primary connection. -/
theorem processSection_empty (n i : Nat) (sec : Section)
    (hi : sec.items = []) (hs : sec.subsections = []) :
    processSection n i sec =
      ([sectionNodeOf n i sec],
       [{ fromId := "root".data, toId := sectionId i,
          type := "primary".data }]) := by
  simp [processSection, sectionNodeOf, hi, hs, mapWithIndex]

/-- Under the all-empty hypothesis, the per-section blocks of
`processData` are exactly the section nodes. -/
theorem flatMapIdx_processSection_empty (n : Nat) :
    ∀ (secs : List Section) (s : Nat),
      (∀ sec ∈ secs, sec.items = [] ∧ sec.subsections = []) →
      flatMapIdx (fun i sec => (processSection n i sec).1) s secs =
        mapWithIndex (fun i sec => sectionNodeOf n i sec) s secs := by
  intro secs
  induction secs with
  | nil => intro s _; rfl
  | cons sec rest ih =>
    intro s h
    have hsec := h sec (by simp)
    rw [flatMapIdx, mapWithIndex, processSection_empty n s sec hsec.1 hsec.2,
      ih (s + 1) (fun x hx => h x (by simp [hx]))]
    rfl

/-- The section nodes all pass the `type == section` filter. -/
theorem filter_sectionNodes_length (n : Nat) :
    ∀ (secs : List Section) (s : Nat),
      ((mapWithIndex (fun i sec => sectionNodeOf n i sec) s secs).filter
        (fun nd => nd.type == "section".data)).length = secs.length := by
  intro secs
  induction secs with
  | nil => intro s; rfl
  | cons sec rest ih =>
    intro s
    rw [mapWithIndex, List.filter_cons_of_pos (by rfl), List.length_cons, ih (s + 1)]
    rfl

end Renderer

namespace Mark2

/-- With all sections empty, the section blocks of `buildNodeStructure`
degenerate to one level-2 node per section with consecutive ids. -/
theorem buildSectionsNodes_empty :
    ∀ (secs : List Section) (startId : Nat),
      (∀ sec ∈ secs, sec.items = [] ∧ sec.subsections = []) →
      buildSectionsNodes startId secs = mapWithIndex secGNode startId secs := by
  intro secs
  induction secs with
  | nil => intro startId _; rfl
  | cons sec rest ih =>
    intro startId h
    have hsec := h sec (by simp)
    rw [buildSectionsNodes, mapWithIndex]
    have hblock : buildSectionNodes startId sec = [secGNode startId sec] := by
      simp [buildSectionNodes, hsec.1, hsec.2, mapWithIndex, buildSubBlocks,
        subBlockIds, secGNode]
    have hsize : sectionSize sec = 1 := by
      simp [sectionSize, hsec.1, hsec.2]
    rw [hblock, hsize, ih (startId + 1) (fun x hx => h x (by simp [hx]))]
    rfl

/-- The empty-section generator nodes all have level 2. -/
theorem secGNode_map_level :
    ∀ (secs : List Section) (s : Nat),
      (mapWithIndex secGNode s secs).map (fun n => n.level) =
        secs.map (fun _ => 2) := by
  intro secs
  induction secs with
  | nil => intro s; rfl
  | cons sec rest ih => intro s; simp [mapWithIndex, secGNode, ih (s + 1)]

/-- `any (level == l)` over the empty-section generator nodes is decided
by whether `l = 2` and the list is nonempty. -/
theorem secGNode_any_level :
    ∀ (secs : List Section) (s : Nat) (l : Nat),
      (mapWithIndex secGNode s secs).any (fun n => n.level == l) =
        (!secs.isEmpty && (2 == l)) := by
  intro secs
  induction secs with
  | nil => intro s l; rfl
  | cons sec rest ih =>
    intro s l
    rw [mapWithIndex, List.any_cons, ih (s + 1)]
    cases hrest : rest.isEmpty <;> cases hl : ((2 : Nat) == l) <;>
      simp [secGNode, hl]

end Mark2

namespace Generator

open Mark2

/-- The positioning loop leaves entries outside its index list
untouched. -/
theorem positionGo_get_notMem (radius angleStep : ℝ) (rootIdx : Nat) :
    ∀ (idxs : List Nat) (j : Nat) (heap : List GNode) (i : Nat), i ∉ idxs →
      (positionGo radius angleStep rootIdx idxs j heap)[i]? = heap[i]? := by
  intro idxs
  induction idxs with
  | nil => intro j heap i _; rfl
  | cons idx rest ih =>
    intro j heap i hi
    have hir : i ∉ rest := fun hr => hi (by simp [hr])
    have hii : idx ≠ i := fun he => hi (by simp [he])
    rw [positionGo]
    rcases hget : heap[idx]? with _ | node
    · exact ih (j + 1) heap i hir
    · rw [ih (j + 1) _ i hir, List.getElem?_set_ne hii]

/-- Closed form of the positioning loop at the index stored at position
`k` of a duplicate-free index list avoiding the root index: the node is
updated in place with the circle position at angle
`(j0 + k) * angleStep - pi / 2`, read off the untouched root entry. -/
theorem positionGo_get (radius angleStep : ℝ) (rootIdx : Nat) :
    ∀ (idxs : List Nat) (j0 : Nat) (heap : List GNode),
      idxs.Nodup → rootIdx ∉ idxs →
      ∀ (k idx : Nat), idxs[k]? = some idx →
        (positionGo radius angleStep rootIdx idxs j0 heap)[idx]? =
          (heap[idx]?).map (fun node =>
            { node with
              x := some ((heap[rootIdx]?.getD dfltGNode).x.getD 0 +
                radius * Real.cos (((j0 + k : ℕ) : ℝ) * angleStep -
                  Real.pi / 2)),
              y := some ((heap[rootIdx]?.getD dfltGNode).y.getD 0 +
                radius * Real.sin (((j0 + k : ℕ) : ℝ) * angleStep -
                  Real.pi / 2)) }) := by
  intro idxs
  induction idxs with
  | nil => intro j0 heap _ _ k idx h; simp at h
  | cons idx0 rest ih =>
    intro j0 heap hnodup hroot k idx hk
    have hnd := List.nodup_cons.mp hnodup
    have hroot0 : rootIdx ≠ idx0 := fun he => hroot (by simp [he])
    have hrootr : rootIdx ∉ rest := fun hr => hroot (by simp [hr])
    cases k with
    | zero =>
      simp only [List.getElem?_cons_zero, Option.some.injEq] at hk
      subst hk
      rw [positionGo]
      rcases hget : heap[idx0]? with _ | node
      · rw [positionGo_get_notMem _ _ _ rest (j0 + 1) heap idx0 hnd.1, hget]
        rfl
      · have hlt : idx0 < heap.length :=
          (List.getElem?_eq_some_iff.mp hget).1
        rw [positionGo_get_notMem _ _ _ rest (j0 + 1) _ idx0 hnd.1,
          List.getElem?_set_self hlt]
        rfl
    | succ k =>
      simp only [List.getElem?_cons_succ] at hk
      have hne0 : idx0 ≠ idx := by
        intro he
        exact hnd.1 (he ▸ List.getElem?_mem hk)
      rw [positionGo]
      rcases hget : heap[idx0]? with _ | node
      · rw [ih (j0 + 1) heap hnd.2 hrootr k idx hk]
        have : j0 + 1 + k = j0 + (k + 1) := by omega
        rw [this]
      · rw [ih (j0 + 1) _ hnd.2 hrootr k idx hk,
          List.getElem?_set_ne hne0, List.getElem?_set_ne hroot0.symm]
        have : j0 + 1 + k = j0 + (k + 1) := by omega
        rw [this]

end Generator

namespace Mark2

/-- The maximum of a constant-2 level list. -/
theorem foldr_max_two :
    ∀ (l : List Section),
      ((l.map (fun _ => (2 : Nat))).foldr max 0) = if l.isEmpty then 0 else 2 := by
  intro l
  induction l with
  | nil => rfl
  | cons x rest ih =>
    rw [List.map_cons, List.foldr_cons, ih]
    cases hrest : rest.isEmpty <;> simp

end Mark2

namespace Generator

open Mark2

/-- The levels present on the root-plus-empty-sections heap are exactly
[1, 2]. -/
theorem genLevels_empty_sections (rootG : GNode) (hlevel : rootG.level = 1)
    (s : Section) (rest : List Section) :
    genLevels (rootG :: mapWithIndex secGNode 2 (s :: rest)) = [1, 2] := by
  have hmax : ((rootG :: mapWithIndex secGNode 2 (s :: rest)).map
      (fun n => n.level)).foldr max 0 = 2 := by
    rw [List.map_cons, List.foldr_cons, secGNode_map_level, foldr_max_two]
    simp [hlevel]
  have hany : ∀ l : Nat,
      (rootG :: mapWithIndex secGNode 2 (s :: rest)).any
        (fun n => n.level == l) = ((1 == l) || (2 == l)) := by
    intro l
    rw [List.any_cons, secGNode_any_level]
    simp [hlevel]
  rw [genLevels]
  simp only [hmax]
  have hr : List.range (2 + 1) = [0, 1, 2] := rfl
  rw [hr]
  simp [List.filter, hany]

/-- The level-2 group of the root-plus-empty-sections heap is the index
list [1, ..., n]. -/
theorem genGroup_empty_sections (rootG : GNode) (hlevel : rootG.level = 1)
    (secs : List Section) :
    genGroup (rootG :: mapWithIndex secGNode 2 secs) 2 =
      (List.range secs.length).map Nat.succ := by
  rw [genGroup]
  have hlen : (rootG :: mapWithIndex secGNode 2 secs).length =
      secs.length + 1 := by
    rw [List.length_cons, mapWithIndex_length]
  rw [hlen, List.range_succ_eq_map]
  rw [List.filter_cons_of_neg (by simp [hlevel])]
  rw [List.filter_map]
  congr 1
  refine List.filter_eq_self.mpr ?_
  intro a ha
  have halt : a < secs.length := List.mem_range.mp ha
  have : secs[a]? = some secs[a] := List.getElem?_eq_getElem halt
  simp only [Function.comp_apply, List.getElem?_cons_succ, mapWithIndex_getElem,
    this, Option.map_some]
  rfl

/-- Full evaluation of `calculateNodePositions` with the default
configuration on the heap of a document whose sections are all empty:
section `i` (heap index `i + 1`) is placed on the circle of radius
2 * 200 = 400 around the root center (400, 300), at angle
`i * (2 pi / n) - pi / 2`. -/
theorem calcNP_empty_sections (title : List Char) (childIds : List Nat)
    (s : Section) (rest : List Section) :
    ∀ (i : Nat) (sec : Section), (s :: rest)[i]? = some sec →
      (calculateNodePositions
        (({ id := 1, text := title, level := 1, parent := none,
            children := childIds } : GNode) ::
          mapWithIndex secGNode 2 (s :: rest)) {}).2[i + 1]? =
        some { id := 2 + i, text := sec.title, level := 2, parent := some 1,
               children := [],
               x := some (400 + 400 * Real.cos ((i : ℝ) *
                 (2 * Real.pi / ((s :: rest).length : ℝ)) - Real.pi / 2)),
               y := some (300 + 400 * Real.sin ((i : ℝ) *
                 (2 * Real.pi / ((s :: rest).length : ℝ)) - Real.pi / 2)) } := by
  intro i sec hi
  have hlt : i < (s :: rest).length := (List.getElem?_eq_some_iff.mp hi).1
  have hfind : (({ id := 1, text := title, level := 1, parent := none,
                   children := childIds } : GNode) ::
      mapWithIndex secGNode 2 (s :: rest)).findIdx?
        (fun n => n.level == 1) = some 0 := rfl
  rw [calculateNodePositions]
  simp only [List.isEmpty_cons, hfind, Bool.false_eq_true, if_false,
    Option.getD_none]
  have hset : setXY (({ id := 1, text := title, level := 1, parent := none,
                        children := childIds } : GNode) ::
      mapWithIndex secGNode 2 (s :: rest)) 0 ((800 : ℝ) / 2) ((600 : ℝ) / 2) =
      ({ id := 1, text := title, level := 1, parent := none,
         children := childIds, x := some ((800 : ℝ) / 2),
         y := some ((600 : ℝ) / 2) } : GNode) ::
      mapWithIndex secGNode 2 (s :: rest) := by
    rw [setXY]
    rfl
  rw [hset, genLevels_empty_sections _ rfl s rest]
  rw [List.drop_one, List.tail_cons, List.foldl_cons, List.foldl_nil]
  rw [genGroup_empty_sections _ rfl (s :: rest)]
  rw [positionLevelNodes]
  simp only [List.length_map, List.length_range]
  rw [positionGo_get _ _ 0 _ 0 _
    (List.Nodup.map Nat.succ_injective (List.nodup_range _))
    (by simp)
    i (i + 1)
    (by rw [List.getElem?_map, List.getElem?_range hlt]; rfl)]
  simp only [List.getElem?_cons_succ, List.getElem?_cons_zero,
    mapWithIndex_getElem, hi, Option.map_some, Option.getD_some]
  simp only [secGNode, GNode.mk.injEq, Nat.zero_add]
  norm_num
  exact ⟨rfl, rfl, rfl, rfl, rfl⟩

end Generator

/-- C5 counterexample: for a document with exactly one section (n = 1),
`positionLevelNodes` places the section node at
`center + radius * (cos, sin)` of angle `0 * (2 pi / 1) - pi / 2`, giving
x = 400; the claim's angle `0 * (2 pi / 1)` would give x = 800. -/
theorem c5_counterexample_generator_angle_offset :
    ((Generator.calculateNodePositions
        (Mark2.buildNodeStructure Mark2.sampleDoc) {}).2[1]?).map
      (fun n => n.x) = some (some (400 : ℝ)) ∧
    (400 : ℝ) ≠ 400 + 400 * Real.cos ((0 : ℝ) * (2 * Real.pi / 1)) := by
  constructor
  · have h := Generator.calcNP_empty_sections "T".data
      (Mark2.sectionIds 2 [Mark2.sampleSection]) Mark2.sampleSection [] 0
      Mark2.sampleSection rfl
    have hb : Mark2.buildNodeStructure Mark2.sampleDoc =
        ({ id := 1, text := "T".data, level := 1, parent := none,
           children := Mark2.sectionIds 2 [Mark2.sampleSection] } :
          Mark2.GNode) ::
        Mark2.mapWithIndex Mark2.secGNode 2 [Mark2.sampleSection] := rfl
    rw [hb, h]
    have hangle : ((0 : ℕ) : ℝ) * (2 * Real.pi /
        ((([Mark2.sampleSection] : List Mark2.Section)).length : ℝ)) -
        Real.pi / 2 = -(Real.pi / 2) := by
      push_cast
      ring
    rw [hangle, Real.cos_neg, Real.cos_pi_div_two]
    norm_num
  · rw [zero_mul, Real.cos_zero]
    norm_num

/-- C5 (amended): for a parsed document with one title and n >= 1
sections carrying no items and no subsections, both layouts place
exactly the n section nodes on a circle of radius levelSpacing * 2
around the title with equal angular spacing 2 pi / n — the renderer
(levelSpacing 280, center (600, 400)) at angle `i * (2 pi / n)`, and the
generator (levelSpacing 200, center (400, 300)) at angle
`i * (2 pi / n) - pi / 2`. -/
theorem c5_sections_on_circle_amended :
    (∀ (title : List Char) (s : Mark2.Section) (rest : List Mark2.Section),
      (∀ sec ∈ s :: rest, sec.items = [] ∧ sec.subsections = []) →
      (((Renderer.processData title (s :: rest)).1.filter
          (fun nd => nd.type == "section".data)).length = (s :: rest).length ∧
       ∀ (i : Nat) (sec : Mark2.Section), (s :: rest)[i]? = some sec →
         ∃ nd ∈ (Renderer.processData title (s :: rest)).1,
           nd.id = Renderer.sectionId i ∧
           nd.x = 600 + Real.cos ((i : ℝ) *
             (2 * Real.pi / ((s :: rest).length : ℝ))) * (280 * 2) ∧
           nd.y = 400 + Real.sin ((i : ℝ) *
             (2 * Real.pi / ((s :: rest).length : ℝ))) * (280 * 2))) ∧
    (∀ (doc : Mark2.RootDoc) (s : Mark2.Section) (rest : List Mark2.Section),
      doc.sections = s :: rest →
      (∀ sec ∈ doc.sections, sec.items = [] ∧ sec.subsections = []) →
      ∀ (i : Nat) (sec : Mark2.Section), doc.sections[i]? = some sec →
        (Generator.calculateNodePositions (Mark2.buildNodeStructure doc)
          {}).2[i + 1]? =
          some { id := 2 + i, text := sec.title, level := 2, parent := some 1,
                 children := [],
                 x := some (400 + 400 * Real.cos ((i : ℝ) *
                   (2 * Real.pi / (doc.sections.length : ℝ)) - Real.pi / 2)),
                 y := some (300 + 400 * Real.sin ((i : ℝ) *
                   (2 * Real.pi / (doc.sections.length : ℝ)) - Real.pi / 2)) }) := by
  constructor
  · intro title s rest h
    have hflat := Renderer.flatMapIdx_processSection_empty
      (s :: rest).length (s :: rest) 0 h
    constructor
    · simp only [Renderer.processData]
      rw [hflat, List.filter_cons_of_neg
        (by show ¬(("root".data : List Char) == "section".data) = true; decide),
        Renderer.filter_sectionNodes_length]
    · intro i sec hget
      refine ⟨Renderer.sectionNodeOf (s :: rest).length i sec, ?_, rfl, rfl, rfl⟩
      simp only [Renderer.processData]
      rw [hflat]
      have hx : (Mark2.mapWithIndex
          (fun j sc => Renderer.sectionNodeOf (s :: rest).length j sc) 0
          (s :: rest))[i]? =
          some (Renderer.sectionNodeOf (s :: rest).length i sec) := by
        rw [Mark2.mapWithIndex_getElem, hget, Nat.zero_add]
        rfl
      exact List.mem_cons_of_mem _ (List.getElem?_mem hx)
  · intro doc s rest hsec hempty i sec hget
    have hb : Mark2.buildNodeStructure doc =
        ({ id := 1, text := doc.title, level := 1, parent := none,
           children := Mark2.sectionIds 2 doc.sections } : Mark2.GNode) ::
        Mark2.mapWithIndex Mark2.secGNode 2 doc.sections := by
      rw [Mark2.buildNodeStructure,
        Mark2.buildSectionsNodes_empty doc.sections 2 hempty]
    rw [hb, hsec]
    rw [hsec] at hget
    exact Generator.calcNP_empty_sections doc.title _ s rest i sec hget

/-- C5 witness: the amended placement facts evaluated on a concrete
document with a single empty section. -/
theorem c5_sections_on_circle_amended_witness :
    (((Renderer.processData "T".data [Mark2.sampleSection]).1.filter
        (fun nd => nd.type == "section".data)).length =
      ([Mark2.sampleSection] : List Mark2.Section).length ∧
    (∃ nd ∈ (Renderer.processData "T".data [Mark2.sampleSection]).1,
      nd.id = Renderer.sectionId 0 ∧
      nd.x = 600 + Real.cos (((0 : ℕ) : ℝ) * (2 * Real.pi /
        ((([Mark2.sampleSection] : List Mark2.Section)).length : ℝ))) * (280 * 2) ∧
      nd.y = 400 + Real.sin (((0 : ℕ) : ℝ) * (2 * Real.pi /
        ((([Mark2.sampleSection] : List Mark2.Section)).length : ℝ))) * (280 * 2)) ∧
    (Generator.calculateNodePositions
        (Mark2.buildNodeStructure Mark2.sampleDoc) {}).2[1]? =
      some { id := 2, text := Mark2.sampleSection.title, level := 2,
             parent := some 1, children := [],
             x := some (400 + 400 * Real.cos (((0 : ℕ) : ℝ) * (2 * Real.pi /
               (Mark2.sampleDoc.sections.length : ℝ)) - Real.pi / 2)),
             y := some (300 + 400 * Real.sin (((0 : ℕ) : ℝ) * (2 * Real.pi /
               (Mark2.sampleDoc.sections.length : ℝ)) - Real.pi / 2)) }) := by
  have hr := c5_sections_on_circle_amended.1 "T".data Mark2.sampleSection []
    (by decide)
  have hg := c5_sections_on_circle_amended.2 Mark2.sampleDoc
    Mark2.sampleSection [] rfl (by decide) 0 Mark2.sampleSection rfl
  exact ⟨hr.1, hr.2 0 _ rfl, hg⟩

namespace Renderer

open Mark2

/-- Subsection entries never pass the `type === item` filter. -/
theorem filter_isItem_subsections :
    ∀ (subs : List Subsection) (s : Nat),
      (mapWithIndex (fun j sub => AllItem.subsection sub.title j sub.items) s
        subs).filter AllItem.isItem = [] := by
  intro subs
  induction subs with
  | nil => intro s; rfl
  | cons sub rest ih =>
    intro s
    rw [mapWithIndex, List.filter_cons_of_neg (by simp [AllItem.isItem]), ih (s + 1)]

/-- The `bulletItems` of a section are exactly its direct items. -/
theorem bulletItems_filter (sec : Section) :
    (sec.items.map AllItem.item ++
      mapWithIndex (fun j sub => AllItem.subsection sub.title j sub.items) 0
        sec.subsections).filter AllItem.isItem =
    sec.items.map AllItem.item := by
  rw [List.filter_append, filter_isItem_subsections, List.append_nil,
    List.filter_map]
  have : List.filter (AllItem.isItem ∘ AllItem.item) sec.items = sec.items :=
    List.filter_eq_self.mpr (fun a _ => rfl)
  rw [this]

theorem layoutItemsRadially_single (t : List Char) (sx sy θ : ℝ) (i : Nat) :
    (layoutItemsRadially [AllItem.item t] sx sy θ i).1 =
      [{ id := itemId i 0, text := t, x := sx + Real.cos θ * (280 * 2.8),
         y := sy + Real.sin θ * (280 * 2.8), level := 3, type := "item".data,
         width := 180 * 0.8, height := 60 * 0.8,
         parentId := some (sectionId i) }] := by
  simp only [layoutItemsRadially, radialEntry, mapWithIndex, List.map_cons,
    List.map_nil, List.flatten_cons, List.flatten_nil, List.append_nil,
    List.length_cons, List.length_nil]
  have hangle : θ - (Real.pi * 1.4 ⊓ (Real.pi * 1.4 / (((0 + 1 : ℕ) ⊔ 1 : ℕ) : ℝ) ⊔ 0.5) *
      (((0 + 1 : ℕ) : ℝ) - 1)) / 2 +
      ((0 : ℕ) : ℝ) * (Real.pi * 1.4 / (((0 + 1 : ℕ) ⊔ 1 : ℕ) : ℝ) ⊔ 0.5) = θ := by
    have h1 : (((0 + 1 : ℕ) : ℝ) - 1) = 0 := by norm_num
    rw [h1, mul_zero, min_eq_right (by positivity)]
    norm_num
  rw [hangle]

theorem layoutBulletsVertically_get (bullets : List AllItem) (sx sy θ : ℝ)
    (i j : Nat) (b : AllItem) (hj : bullets[j]? = some b) :
    (layoutBulletsVertically bullets sx sy θ i).1[j]? =
      some { id := itemId i j, text := b.text,
             x := sx + 500 * (if Real.pi < θ then -1 else 1),
             y := sy - ((bullets.length : ℝ) - 1) * 120 / 2 + (j : ℝ) * 120,
             level := 3, type := "item".data,
             width := 180 * 0.8, height := 60 * 0.8,
             parentId := some (sectionId i) } := by
  simp only [layoutBulletsVertically]
  rw [mapWithIndex_getElem, hj, Nat.zero_add]
  rfl

theorem processSection_single_radial (n i : Nat) (sec : Section)
    (t : List Char) (h : sec.items = [t]) :
    ∃ nd ∈ (processSection n i sec).1,
      nd.id = itemId i 0 ∧ nd.text = t ∧ nd.level = 3 ∧
      nd.parentId = some (sectionId i) ∧
      nd.x = 600 + Real.cos ((i : ℝ) * (2 * Real.pi / (n : ℝ))) * (280 * 2) +
        Real.cos ((i : ℝ) * (2 * Real.pi / (n : ℝ))) * (280 * 2.8) ∧
      nd.y = 400 + Real.sin ((i : ℝ) * (2 * Real.pi / (n : ℝ))) * (280 * 2) +
        Real.sin ((i : ℝ) * (2 * Real.pi / (n : ℝ))) * (280 * 2.8) := by
  refine ⟨{ id := itemId i 0, text := t,
            x := 600 + Real.cos ((i : ℝ) * (2 * Real.pi / (n : ℝ))) * (280 * 2) +
              Real.cos ((i : ℝ) * (2 * Real.pi / (n : ℝ))) * (280 * 2.8),
            y := 400 + Real.sin ((i : ℝ) * (2 * Real.pi / (n : ℝ))) * (280 * 2) +
              Real.sin ((i : ℝ) * (2 * Real.pi / (n : ℝ))) * (280 * 2.8),
            level := 3, type := "item".data, width := 180 * 0.8,
            height := 60 * 0.8, parentId := some (sectionId i) }, ?_,
    rfl, rfl, rfl, rfl, rfl, rfl⟩
  simp only [processSection]
  simp only [bulletItems_filter]
  rw [h]
  simp only [List.map_cons, List.map_nil, List.length_cons, List.length_nil,
    Nat.zero_add]
  rw [if_pos (by norm_num : (0 : ℕ) < 1), if_neg (by norm_num : ¬ (2 : ℕ) ≤ 1)]
  rw [layoutItemsRadially_single]
  exact List.mem_cons_of_mem _ (List.mem_append_right _ (List.mem_cons_self _ _))

theorem processSection_vertical (n i : Nat) (sec : Section)
    (h2 : 2 ≤ sec.items.length) (j : Nat) (t : List Char)
    (hj : sec.items[j]? = some t) :
    ∃ nd ∈ (processSection n i sec).1,
      nd.id = itemId i j ∧ nd.text = t ∧ nd.level = 3 ∧
      nd.parentId = some (sectionId i) ∧
      nd.x = 600 + Real.cos ((i : ℝ) * (2 * Real.pi / (n : ℝ))) * (280 * 2) +
        500 * (if Real.pi < (i : ℝ) * (2 * Real.pi / (n : ℝ)) then (-1 : ℝ)
          else 1) ∧
      nd.y = 400 + Real.sin ((i : ℝ) * (2 * Real.pi / (n : ℝ))) * (280 * 2) -
        ((sec.items.length : ℝ) - 1) * 120 / 2 + (j : ℝ) * 120 := by
  have hb : (sec.items.map AllItem.item)[j]? = some (AllItem.item t) := by
    rw [List.getElem?_map, hj]
    rfl
  have hx := layoutBulletsVertically_get (sec.items.map AllItem.item)
    (600 + Real.cos ((i : ℝ) * (2 * Real.pi / (n : ℝ))) * (280 * 2))
    (400 + Real.sin ((i : ℝ) * (2 * Real.pi / (n : ℝ))) * (280 * 2))
    ((i : ℝ) * (2 * Real.pi / (n : ℝ))) i j (AllItem.item t) hb
  rw [List.length_map] at hx
  refine ⟨{ id := itemId i j, text := t,
            x := 600 + Real.cos ((i : ℝ) * (2 * Real.pi / (n : ℝ))) * (280 * 2) +
              500 * (if Real.pi < (i : ℝ) * (2 * Real.pi / (n : ℝ)) then (-1 : ℝ)
                else 1),
            y := 400 + Real.sin ((i : ℝ) * (2 * Real.pi / (n : ℝ))) * (280 * 2) -
              ((sec.items.length : ℝ) - 1) * 120 / 2 + (j : ℝ) * 120,
            level := 3, type := "item".data, width := 180 * 0.8,
            height := 60 * 0.8, parentId := some (sectionId i) }, ?_,
    rfl, rfl, rfl, rfl, rfl, rfl⟩
  simp only [processSection]
  simp only [bulletItems_filter, List.length_map]
  rw [if_pos (lt_of_lt_of_le (by norm_num : (0 : ℕ) < 2) h2), if_pos h2]
  exact List.mem_cons_of_mem _
    (List.mem_append_right _ (List.getElem?_mem hx))

end Renderer

/-- C9: with the default bullet threshold 2, a section of the rendered
data with exactly one direct item places it by the radial fan (distance
280 * 2.8 from the section node along the section's own angle), while a
section with two or more direct items stacks them vertically: a shared
x at horizontal offset 500 from the section (to the left when the
section angle exceeds pi, to the right otherwise) and constant vertical
spacing 120 centered on the section's y. -/
theorem c9_bullet_threshold_strategies (title : List Char)
    (sections : List Mark2.Section) (i : Nat) (sec : Mark2.Section)
    (hsec : sections[i]? = some sec) :
    (∀ t, sec.items = [t] →
      ∃ nd ∈ (Renderer.processData title sections).1,
        nd.id = Renderer.itemId i 0 ∧ nd.text = t ∧ nd.level = 3 ∧
        nd.parentId = some (Renderer.sectionId i) ∧
        nd.x = 600 + Real.cos ((i : ℝ) *
            (2 * Real.pi / (sections.length : ℝ))) * (280 * 2) +
          Real.cos ((i : ℝ) *
            (2 * Real.pi / (sections.length : ℝ))) * (280 * 2.8) ∧
        nd.y = 400 + Real.sin ((i : ℝ) *
            (2 * Real.pi / (sections.length : ℝ))) * (280 * 2) +
          Real.sin ((i : ℝ) *
            (2 * Real.pi / (sections.length : ℝ))) * (280 * 2.8)) ∧
    (2 ≤ sec.items.length →
      ∀ (j : Nat) (t : List Char), sec.items[j]? = some t →
      ∃ nd ∈ (Renderer.processData title sections).1,
        nd.id = Renderer.itemId i j ∧ nd.text = t ∧ nd.level = 3 ∧
        nd.parentId = some (Renderer.sectionId i) ∧
        nd.x = 600 + Real.cos ((i : ℝ) *
            (2 * Real.pi / (sections.length : ℝ))) * (280 * 2) +
          500 * (if Real.pi < (i : ℝ) *
            (2 * Real.pi / (sections.length : ℝ)) then (-1 : ℝ) else 1) ∧
        nd.y = 400 + Real.sin ((i : ℝ) *
            (2 * Real.pi / (sections.length : ℝ))) * (280 * 2) -
          ((sec.items.length : ℝ) - 1) * 120 / 2 + (j : ℝ) * 120) := by
  constructor
  · intro t h
    obtain ⟨nd, hmem, hprops⟩ :=
      Renderer.processSection_single_radial sections.length i sec t h
    refine ⟨nd, ?_, hprops⟩
    simp only [Renderer.processData]
    refine List.mem_cons_of_mem _
      (Mark2.flatMapIdx_mem_of_get _ sections 0 i sec nd hsec ?_)
    show nd ∈ (Renderer.processSection sections.length (0 + i) sec).1
    rw [Nat.zero_add]
    exact hmem
  · intro h2 j t hj
    obtain ⟨nd, hmem, hprops⟩ :=
      Renderer.processSection_vertical sections.length i sec h2 j t hj
    refine ⟨nd, ?_, hprops⟩
    simp only [Renderer.processData]
    refine List.mem_cons_of_mem _
      (Mark2.flatMapIdx_mem_of_get _ sections 0 i sec nd hsec ?_)
    show nd ∈ (Renderer.processSection sections.length (0 + i) sec).1
    rw [Nat.zero_add]
    exact hmem

/-- C9 witness: the two placement strategies evaluated on concrete
one-item and two-item sections. -/
theorem c9_bullet_threshold_strategies_witness :
    (∃ nd ∈ (Renderer.processData "T".data [Mark2.c9SampleOne]).1,
      nd.id = Renderer.itemId 0 0 ∧ nd.text = "x".data ∧ nd.level = 3 ∧
      nd.parentId = some (Renderer.sectionId 0) ∧
      nd.x = 600 + Real.cos (((0 : ℕ) : ℝ) * (2 * Real.pi /
          (([Mark2.c9SampleOne] : List Mark2.Section).length : ℝ))) * (280 * 2) +
        Real.cos (((0 : ℕ) : ℝ) * (2 * Real.pi /
          (([Mark2.c9SampleOne] : List Mark2.Section).length : ℝ))) * (280 * 2.8) ∧
      nd.y = 400 + Real.sin (((0 : ℕ) : ℝ) * (2 * Real.pi /
          (([Mark2.c9SampleOne] : List Mark2.Section).length : ℝ))) * (280 * 2) +
        Real.sin (((0 : ℕ) : ℝ) * (2 * Real.pi /
          (([Mark2.c9SampleOne] : List Mark2.Section).length : ℝ))) * (280 * 2.8)) ∧
    (∃ nd ∈ (Renderer.processData "T".data [Mark2.c9SampleTwo]).1,
      nd.id = Renderer.itemId 0 1 ∧ nd.text = "y".data ∧ nd.level = 3 ∧
      nd.parentId = some (Renderer.sectionId 0) ∧
      nd.x = 600 + Real.cos (((0 : ℕ) : ℝ) * (2 * Real.pi /
          (([Mark2.c9SampleTwo] : List Mark2.Section).length : ℝ))) * (280 * 2) +
        500 * (if Real.pi < ((0 : ℕ) : ℝ) * (2 * Real.pi /
          (([Mark2.c9SampleTwo] : List Mark2.Section).length : ℝ))
          then (-1 : ℝ) else 1) ∧
      nd.y = 400 + Real.sin (((0 : ℕ) : ℝ) * (2 * Real.pi /
          (([Mark2.c9SampleTwo] : List Mark2.Section).length : ℝ))) * (280 * 2) -
        ((Mark2.c9SampleTwo.items.length : ℝ) - 1) * 120 / 2 +
        ((1 : ℕ) : ℝ) * 120) :=
  ⟨(c9_bullet_threshold_strategies "T".data _ 0 _ rfl).1 "x".data rfl,
   (c9_bullet_threshold_strategies "T".data _ 0 _ rfl).2 (by decide) 1
     "y".data rfl⟩
